import Mathlib

/-!
# zkbnb-go-sdk: transaction canonicalisation, signing and verification

A shallow embedding of `txutils/verify_tx_signature.go` and `txutils/construct_tx.go`.

Conventions of the embedding.

* A Go pointer is an `Option`: `none` is the nil pointer.  A function that dereferences
  a nil pointer ends in `Except.error Panic.nilDereference`.
* `int64` fields are `Int`: the code only copies them, no arithmetic is performed on them.
* `*big.Int` is `Option Int` (a possibly-nil pointer to an arbitrary-precision integer).
* `[]byte` is `List Nat` (`Bytes`); the nil slice and the empty slice are both `[]`.
* The packages `txtypes`, `mimc`, `eddsa`, `encoding/json` and the `accounts.Signer`
  interface are external: their operations are parameters of the embedding
  (`TxTypes`, `MiMC`, `Eddsa`, `Signer`), and a hash instance is an explicit state `H`.
* An entry point returns its Go result together with the list of the calls it made, in
  order (`Call`), so that "is not invoked" and "no later stage runs" can be stated.
* The nine `Construct*` bodies are the same statements after the conversion, and so are
  the seven `Verify*TxSig` bodies; they are written once, as `signAndMarshal` and
  `hashAndVerify`.
-/

namespace ZkbnbSdk

/-- Runtime panics of the Go program: a nil pointer dereference, the panic of
`big.Int.FillBytes` on a buffer too small for the value, and the panic of `big.Int.Mod`
on a zero modulus. -/
inductive Panic where
  | nilDereference
  | fillBytesOverflow
  | divisionByZero
  deriving DecidableEq, Repr

/-- Go byte slices. -/
abbrev Bytes := List Nat

/-- Modelled from the spec: `types.TransactOpts` is declared outside the files under
src/; these are the fields the conversions read (ambient sender, destination, gas,
call data, memo, nonce and expiry). -/
structure TransactOpts where
  FromAccountIndex : Int
  ToAccountIndex : Int
  ToAccountAddress : String
  GasAccountIndex : Int
  GasFeeAssetId : Int
  GasFeeAssetAmount : Option Int
  Memo : String
  CallData : String
  CallDataHash : Bytes
  ExpiredAt : Int
  Nonce : Int
  deriving DecidableEq, Repr

/-- Modelled from the spec: `types.TransferTxReq` is declared outside the files under
src/; the fields are the ones the test `TestTransferInLayer2` sets. -/
structure TransferTxReq where
  To : String
  AssetId : Int
  AssetAmount : Option Int
  deriving DecidableEq, Repr

/-- Modelled from the spec: `txtypes.TransferTxInfo` belongs to an external package; the
fields are the ones `ConvertTransferTx` writes plus the signature slot `Sig` written by
`ConstructTransferTx`. -/
structure TransferTxInfo where
  FromAccountIndex : Int
  ToL1Address : String
  AssetId : Int
  AssetAmount : Option Int
  GasAccountIndex : Int
  GasFeeAssetId : Int
  GasFeeAssetAmount : Option Int
  Memo : String
  CallData : String
  CallDataHash : Bytes
  ExpiredAt : Int
  Nonce : Int
  Sig : Bytes
  deriving DecidableEq, Repr

/-- Modelled from the spec: `types.WithdrawTxReq` (also named `types.WithdrawReq` by
`ConstructWithdrawTxInfo`) is declared outside the files under src/; the fields are the
ones `ConvertWithdrawTx` reads. -/
structure WithdrawTxReq where
  AssetId : Int
  AssetAmount : Option Int
  ToAddress : String
  deriving DecidableEq, Repr

/-- Modelled from the spec: `types.TransferNftTxReq`, declared outside the files under
src/. -/
structure TransferNftTxReq where
  NftIndex : Int
  To : String
  deriving DecidableEq, Repr

/-- Modelled from the spec: `types.WithdrawNftTxReq`, declared outside the files under
src/. -/
structure WithdrawNftTxReq where
  AccountIndex : Int
  NftIndex : Int
  ToAddress : String
  deriving DecidableEq, Repr

/-- Modelled from the spec: `types.ChangePubKeyReq`, declared outside the files under
src/. -/
structure ChangePubKeyReq where
  L1Address : String
  PubKeyX : Bytes
  PubKeyY : Bytes
  deriving DecidableEq, Repr

/-- Modelled from the spec: `types.MintNftTxReq`, declared outside the files under src/;
the fields are the ones `ConvertMintNftTxInfo` reads. -/
structure MintNftTxReq where
  NftCollectionId : Int
  NftContentType : Int
  RoyaltyRate : Int
  MetaData : String
  MutableAttributes : String
  deriving DecidableEq, Repr

/-- Modelled from the spec: `types.CreateCollectionTxReq` (also named
`types.CreateCollectionReq` by `ConstructCreateCollectionTx`), declared outside the files
under src/. -/
structure CreateCollectionTxReq where
  Name : String
  Introduction : String
  deriving DecidableEq, Repr

/-- Modelled from the spec: `types.CancelOfferTxReq` (also named `types.CancelOfferReq`
by `ConstructCancelOfferTx`), declared outside the files under src/. -/
structure CancelOfferTxReq where
  OfferId : Int
  deriving DecidableEq, Repr

/-- Modelled from the spec: `types.OfferTxInfo` and `txtypes.OfferTxInfo` are declared
outside the files under src/; one structure stands for both, with the fifteen fields
`ConvertOfferTxInfo` reads and writes.  `Sig` is the L2 account signature, `L1Sig` the
L1-style signature; the Go field `Type` is written `Type_`. -/
structure OfferTxInfo where
  Type_ : Int
  OfferId : Int
  AccountIndex : Int
  NftIndex : Int
  AssetId : Int
  AssetAmount : Option Int
  ListedAt : Int
  ExpiredAt : Int
  RoyaltyRate : Int
  ChanelAccountIndex : Int
  ChanelRate : Int
  ProtocolRate : Int
  ProtocolAmount : Option Int
  Sig : Bytes
  L1Sig : String
  deriving DecidableEq, Repr

/-- Modelled from the spec: `types.AtomicMatchTxReq`, declared outside the files under
src/: pointers to one buy-side and one sell-side offer. -/
structure AtomicMatchTxReq where
  BuyOffer : Option OfferTxInfo
  SellOffer : Option OfferTxInfo
  deriving DecidableEq, Repr

/-- Modelled from the spec: `txtypes.TransferNftTxInfo` (external package); the fields
`ConvertTransferNftTxInfo` writes plus the signature slot. -/
structure TransferNftTxInfo where
  FromAccountIndex : Int
  ToL1Address : String
  NftIndex : Int
  GasAccountIndex : Int
  GasFeeAssetId : Int
  GasFeeAssetAmount : Option Int
  CallData : String
  CallDataHash : Bytes
  ExpiredAt : Int
  Nonce : Int
  Sig : Bytes
  deriving DecidableEq, Repr

/-- Modelled from the spec: `txtypes.WithdrawNftTxInfo` (external package); the fields
`ConvertWithdrawNftTxInfo` writes plus the signature slot. -/
structure WithdrawNftTxInfo where
  AccountIndex : Int
  NftIndex : Int
  ToAddress : String
  GasAccountIndex : Int
  GasFeeAssetId : Int
  GasFeeAssetAmount : Option Int
  ExpiredAt : Int
  Nonce : Int
  Sig : Bytes
  deriving DecidableEq, Repr

/-- Modelled from the spec: `txtypes.ChangePubKeyInfo` (external package); the fields
`ConvertChangePubKeyTxInfo` writes plus the signature slot. -/
structure ChangePubKeyInfo where
  AccountIndex : Int
  L1Address : String
  PubKeyX : Bytes
  PubKeyY : Bytes
  GasAccountIndex : Int
  GasFeeAssetId : Int
  GasFeeAssetAmount : Option Int
  ExpiredAt : Int
  Nonce : Int
  Sig : Bytes
  deriving DecidableEq, Repr

/-- Modelled from the spec: `txtypes.MintNftTxInfo` (external package); the fields
`ConvertMintNftTxInfo` writes plus the signature slot. -/
structure MintNftTxInfo where
  CreatorAccountIndex : Int
  ToAccountIndex : Int
  ToL1Address : String
  NftCollectionId : Int
  NftContentType : Int
  RoyaltyRate : Int
  GasAccountIndex : Int
  GasFeeAssetId : Int
  GasFeeAssetAmount : Option Int
  ExpiredAt : Int
  Nonce : Int
  MetaData : String
  MutableAttributes : String
  Sig : Bytes
  deriving DecidableEq, Repr

/-- Modelled from the spec: `txtypes.WithdrawTxInfo` (external package); the fields
`ConvertWithdrawTx` writes plus the signature slot. -/
structure WithdrawTxInfo where
  FromAccountIndex : Int
  AssetId : Int
  AssetAmount : Option Int
  GasAccountIndex : Int
  GasFeeAssetId : Int
  GasFeeAssetAmount : Option Int
  ToAddress : String
  ExpiredAt : Int
  Nonce : Int
  Sig : Bytes
  deriving DecidableEq, Repr

/-- Modelled from the spec: `txtypes.CreateCollectionTxInfo` (external package); the
fields `ConvertCreateCollectionTxInfo` writes plus the signature slot. -/
structure CreateCollectionTxInfo where
  AccountIndex : Int
  Name : String
  Introduction : String
  GasAccountIndex : Int
  GasFeeAssetId : Int
  GasFeeAssetAmount : Option Int
  ExpiredAt : Int
  Nonce : Int
  Sig : Bytes
  deriving DecidableEq, Repr

/-- Modelled from the spec: `txtypes.AtomicMatchTxInfo` (external package); the fields
`ConvertAtomicMatchTxInfo` writes plus the signature slot.  The two offers are
pointers. -/
structure AtomicMatchTxInfo where
  AccountIndex : Int
  BuyOffer : Option OfferTxInfo
  SellOffer : Option OfferTxInfo
  GasAccountIndex : Int
  GasFeeAssetId : Int
  GasFeeAssetAmount : Option Int
  Nonce : Int
  ExpiredAt : Int
  Sig : Bytes
  deriving DecidableEq, Repr

/-- Modelled from the spec: `txtypes.CancelOfferTxInfo` (external package); the fields
`ConvertCancelOfferTxInfo` writes plus the signature slot. -/
structure CancelOfferTxInfo where
  AccountIndex : Int
  OfferId : Int
  GasAccountIndex : Int
  GasFeeAssetId : Int
  GasFeeAssetAmount : Option Int
  ExpiredAt : Int
  Nonce : Int
  Sig : Bytes
  deriving DecidableEq, Repr


/-- `ConvertTransferNftTxInfo` (verify_tx_signature.go:31-44). -/
def ConvertTransferNftTxInfo (tx : Option TransferNftTxReq) (ops : Option TransactOpts) :
    Except Panic TransferNftTxInfo :=
  match tx, ops with
  | some tx, some ops =>
    .ok {
      FromAccountIndex := ops.FromAccountIndex
      ToL1Address := ops.ToAccountAddress
      NftIndex := tx.NftIndex
      GasAccountIndex := ops.GasAccountIndex
      GasFeeAssetId := ops.GasFeeAssetId
      GasFeeAssetAmount := ops.GasFeeAssetAmount
      CallData := ops.CallData
      CallDataHash := ops.CallDataHash
      ExpiredAt := ops.ExpiredAt
      Nonce := ops.Nonce
      Sig := [] }
  | _, _ => .error .nilDereference

/-- `ConvertWithdrawNftTxInfo` (verify_tx_signature.go:46-57). -/
def ConvertWithdrawNftTxInfo (tx : Option WithdrawNftTxReq) (ops : Option TransactOpts) :
    Except Panic WithdrawNftTxInfo :=
  match tx, ops with
  | some tx, some ops =>
    .ok {
      AccountIndex := tx.AccountIndex
      NftIndex := tx.NftIndex
      ToAddress := tx.ToAddress
      GasAccountIndex := ops.GasAccountIndex
      GasFeeAssetId := ops.GasFeeAssetId
      GasFeeAssetAmount := ops.GasFeeAssetAmount
      ExpiredAt := ops.ExpiredAt
      Nonce := ops.Nonce
      Sig := [] }
  | _, _ => .error .nilDereference

/-- `ConvertOfferTxInfo` (verify_tx_signature.go:59-77). -/
def ConvertOfferTxInfo (tx : Option OfferTxInfo) : Except Panic OfferTxInfo :=
  match tx with
  | some tx =>
    .ok {
      Type_ := tx.Type_
      OfferId := tx.OfferId
      AccountIndex := tx.AccountIndex
      NftIndex := tx.NftIndex
      AssetId := tx.AssetId
      AssetAmount := tx.AssetAmount
      ListedAt := tx.ListedAt
      ExpiredAt := tx.ExpiredAt
      RoyaltyRate := tx.RoyaltyRate
      ChanelAccountIndex := tx.ChanelAccountIndex
      ChanelRate := tx.ChanelRate
      ProtocolRate := tx.ProtocolRate
      ProtocolAmount := tx.ProtocolAmount
      Sig := tx.Sig
      L1Sig := tx.L1Sig }
  | none => .error .nilDereference

/-- Go `copy(dst, src)` into a zero-filled buffer of `n` bytes created by
`make([]byte, n)`: the first `min n (len src)` bytes of `src`, then zeros. -/
def copyInto (n : Nat) (src : Bytes) : Bytes :=
  src.take n ++ List.replicate (n - src.length) 0

/-- `ConvertChangePubKeyTxInfo` (verify_tx_signature.go:79-97). -/
def ConvertChangePubKeyTxInfo (tx : Option ChangePubKeyReq) (ops : Option TransactOpts) :
    Except Panic ChangePubKeyInfo :=
  match tx, ops with
  | some tx, some ops =>
    let pubKeyX := copyInto 32 tx.PubKeyX
    let pubKeyY := copyInto 32 tx.PubKeyY
    .ok {
      AccountIndex := ops.FromAccountIndex
      L1Address := tx.L1Address
      PubKeyX := pubKeyX
      PubKeyY := pubKeyY
      GasAccountIndex := ops.GasAccountIndex
      GasFeeAssetId := ops.GasFeeAssetId
      GasFeeAssetAmount := ops.GasFeeAssetAmount
      ExpiredAt := ops.ExpiredAt
      Nonce := ops.Nonce
      Sig := [] }
  | _, _ => .error .nilDereference

/-- `ConvertMintNftTxInfo` (verify_tx_signature.go:99-115). -/
def ConvertMintNftTxInfo (tx : Option MintNftTxReq) (ops : Option TransactOpts) :
    Except Panic MintNftTxInfo :=
  match tx, ops with
  | some tx, some ops =>
    .ok {
      CreatorAccountIndex := ops.FromAccountIndex
      ToAccountIndex := ops.ToAccountIndex
      ToL1Address := ops.ToAccountAddress
      NftCollectionId := tx.NftCollectionId
      NftContentType := tx.NftContentType
      RoyaltyRate := tx.RoyaltyRate
      GasAccountIndex := ops.GasAccountIndex
      GasFeeAssetId := ops.GasFeeAssetId
      GasFeeAssetAmount := ops.GasFeeAssetAmount
      ExpiredAt := ops.ExpiredAt
      Nonce := ops.Nonce
      MetaData := tx.MetaData
      MutableAttributes := tx.MutableAttributes
      Sig := [] }
  | _, _ => .error .nilDereference

/-- `ConvertTransferTx` (verify_tx_signature.go:117-132). -/
def ConvertTransferTx (tx : Option TransferTxReq) (ops : Option TransactOpts) :
    Except Panic TransferTxInfo :=
  match tx, ops with
  | some tx, some ops =>
    .ok {
      FromAccountIndex := ops.FromAccountIndex
      ToL1Address := ops.ToAccountAddress
      AssetId := tx.AssetId
      AssetAmount := tx.AssetAmount
      GasAccountIndex := ops.GasAccountIndex
      GasFeeAssetId := ops.GasFeeAssetId
      GasFeeAssetAmount := ops.GasFeeAssetAmount
      Memo := ops.Memo
      CallData := ops.CallData
      CallDataHash := ops.CallDataHash
      ExpiredAt := ops.ExpiredAt
      Nonce := ops.Nonce
      Sig := [] }
  | _, _ => .error .nilDereference

/-- `ConvertWithdrawTx` (verify_tx_signature.go:134-146). -/
def ConvertWithdrawTx (tx : Option WithdrawTxReq) (ops : Option TransactOpts) :
    Except Panic WithdrawTxInfo :=
  match tx, ops with
  | some tx, some ops =>
    .ok {
      FromAccountIndex := ops.FromAccountIndex
      AssetId := tx.AssetId
      AssetAmount := tx.AssetAmount
      GasAccountIndex := ops.GasAccountIndex
      GasFeeAssetId := ops.GasFeeAssetId
      GasFeeAssetAmount := ops.GasFeeAssetAmount
      ToAddress := tx.ToAddress
      ExpiredAt := ops.ExpiredAt
      Nonce := ops.Nonce
      Sig := [] }
  | _, _ => .error .nilDereference

/-- `ConvertCreateCollectionTxInfo` (verify_tx_signature.go:148-159). -/
def ConvertCreateCollectionTxInfo (tx : Option CreateCollectionTxReq)
    (ops : Option TransactOpts) : Except Panic CreateCollectionTxInfo :=
  match tx, ops with
  | some tx, some ops =>
    .ok {
      AccountIndex := ops.FromAccountIndex
      Name := tx.Name
      Introduction := tx.Introduction
      GasAccountIndex := ops.GasAccountIndex
      GasFeeAssetId := ops.GasFeeAssetId
      GasFeeAssetAmount := ops.GasFeeAssetAmount
      ExpiredAt := ops.ExpiredAt
      Nonce := ops.Nonce
      Sig := [] }
  | _, _ => .error .nilDereference

/-- `ConvertAtomicMatchTxInfo` (verify_tx_signature.go:161-201).  The sell-side literal
does not list `RoyaltyRate`, `ProtocolRate` and `ProtocolAmount`, which therefore keep
their zero values. -/
def ConvertAtomicMatchTxInfo (tx : Option AtomicMatchTxReq) (ops : Option TransactOpts) :
    Except Panic AtomicMatchTxInfo :=
  match tx, ops with
  | some tx, some ops =>
    match tx.BuyOffer, tx.SellOffer with
    | some buy, some sell =>
      .ok {
        AccountIndex := ops.FromAccountIndex
        BuyOffer := some {
          Type_ := buy.Type_
          OfferId := buy.OfferId
          AccountIndex := buy.AccountIndex
          NftIndex := buy.NftIndex
          AssetId := buy.AssetId
          AssetAmount := buy.AssetAmount
          ListedAt := buy.ListedAt
          ExpiredAt := buy.ExpiredAt
          RoyaltyRate := buy.RoyaltyRate
          ChanelAccountIndex := buy.ChanelAccountIndex
          ChanelRate := buy.ChanelRate
          ProtocolRate := buy.ProtocolRate
          ProtocolAmount := buy.ProtocolAmount
          Sig := buy.Sig
          L1Sig := buy.L1Sig }
        SellOffer := some {
          Type_ := sell.Type_
          OfferId := sell.OfferId
          AccountIndex := sell.AccountIndex
          NftIndex := sell.NftIndex
          AssetId := sell.AssetId
          AssetAmount := sell.AssetAmount
          ListedAt := sell.ListedAt
          ExpiredAt := sell.ExpiredAt
          RoyaltyRate := 0
          ChanelAccountIndex := sell.ChanelAccountIndex
          ChanelRate := sell.ChanelRate
          ProtocolRate := 0
          ProtocolAmount := none
          Sig := sell.Sig
          L1Sig := sell.L1Sig }
        GasAccountIndex := ops.GasAccountIndex
        GasFeeAssetId := ops.GasFeeAssetId
        GasFeeAssetAmount := ops.GasFeeAssetAmount
        Nonce := ops.Nonce
        ExpiredAt := ops.ExpiredAt
        Sig := [] }
    | _, _ => .error .nilDereference
  | _, _ => .error .nilDereference

/-- `ConvertCancelOfferTxInfo` (verify_tx_signature.go:203-213). -/
def ConvertCancelOfferTxInfo (tx : Option CancelOfferTxReq) (ops : Option TransactOpts) :
    Except Panic CancelOfferTxInfo :=
  match tx, ops with
  | some tx, some ops =>
    .ok {
      AccountIndex := ops.FromAccountIndex
      OfferId := tx.OfferId
      GasAccountIndex := ops.GasAccountIndex
      GasFeeAssetId := ops.GasFeeAssetId
      GasFeeAssetAmount := ops.GasFeeAssetAmount
      ExpiredAt := ops.ExpiredAt
      Nonce := ops.Nonce
      Sig := [] }
  | _, _ => .error .nilDereference

/-! ## Errors and the external packages -/

/-- An error value created inside an external package (`txtypes`, `eddsa`, `mimc`,
`encoding/json`, an `accounts.Signer`), identified by its message. -/
structure LibError where
  msg : String
  deriving DecidableEq, Repr

/-- The error values the functions of `txutils` return.  `lib e` is a value an external
package created, handed on unchanged.  The other constructors are the values created by
`encoding/hex` (`InvalidByteError(b)`, `ErrLength`) and by `txutils` itself:
`errors.New("invalid public key")`, `fmt.Errorf("invalid signature")` and
`errors.New("[AccountNameHash] invalid account name")`. -/
inductive Error where
  | lib (e : LibError)
  | hexInvalidByte (b : Nat)
  | hexErrLength
  | invalidPublicKey
  | invalidSignature
  | invalidAccountName
  deriving DecidableEq, Repr

/-- The UTF-8 encoding of one character, in Go the bytes it occupies in a `string`. -/
def utf8Bytes (c : Char) : List Nat :=
  let n := c.toNat
  if n < 0x80 then [n]
  else if n < 0x800 then [0xC0 + n / 64, 0x80 + n % 64]
  else if n < 0x10000 then [0xE0 + n / 4096, 0x80 + n / 64 % 64, 0x80 + n % 64]
  else [0xF0 + n / 262144, 0x80 + n / 4096 % 64, 0x80 + n / 64 % 64, 0x80 + n % 64]

/-- The bytes of a Go string, `[]byte(s)`. -/
def stringBytes (s : String) : Bytes :=
  (s.data.map utf8Bytes).flatten

/-- Go `encoding/hex`: the value of a hexadecimal digit, `none` for any other byte. -/
def fromHexChar (c : Nat) : Option Nat :=
  if 48 ≤ c ∧ c ≤ 57 then some (c - 48)
  else if 97 ≤ c ∧ c ≤ 102 then some (c - 97 + 10)
  else if 65 ≤ c ∧ c ≤ 70 then some (c - 65 + 10)
  else none

/-- Go `hex.Decode`: pairs of digits are decoded from the left; the first byte that is
not a digit gives `InvalidByteError`, an odd length with only digits gives `ErrLength`. -/
def hexDecode : List Nat → Except Error Bytes
  | [] => .ok []
  | [p] =>
    match fromHexChar p with
    | none => .error (.hexInvalidByte p)
    | some _ => .error .hexErrLength
  | p :: q :: rest =>
    match fromHexChar p with
    | none => .error (.hexInvalidByte p)
    | some a =>
      match fromHexChar q with
      | none => .error (.hexInvalidByte q)
      | some b =>
        match hexDecode rest with
        | .error err => .error err
        | .ok bs => .ok ((a * 16 + b) :: bs)

/-- Go `hex.DecodeString`. -/
def DecodeString (s : String) : Except Error Bytes :=
  hexDecode (stringBytes s)

/-- External `mimc` package: `H` is the state of a hash instance, `NewMiMC` a freshly
created instance, `Reset` the effect of `hFunc.Reset()`. -/
structure MiMC (H : Type) where
  NewMiMC : H
  Reset : H → H

/-- External `eddsa.PublicKey` of gnark-crypto.  `SetBytes buf` gives the key as filled
in by `pk.SetBytes(buf)`, the number of bytes read and the error; `Verify pk sig msg hFunc`
is `pk.Verify(sig, msg, hFunc)`. -/
structure Eddsa (H PK : Type) where
  SetBytes : Bytes → PK × Int × Option LibError
  Verify : PK → Bytes → Bytes → H → Bool × Option LibError

/-- External `accounts.Signer`: `Sign msg hFunc` is `key.Sign(msg, hFunc)`. -/
structure Signer (H : Type) where
  Sign : Bytes → H → Except LibError Bytes

/-- `parsePk` (verify_tx_signature.go:15-29). -/
def parsePk {H PK : Type} (E : Eddsa H PK) (pkStr : String) : Except Error PK :=
  match DecodeString pkStr with
  | .error err => .error err
  | .ok pkBytes =>
    match E.SetBytes pkBytes with
    | (_, _, some err) => .error (.lib err)
    | (pk, size, none) =>
      if size ≠ 32 then .error .invalidPublicKey
      else .ok pk

/-! ## The signing entry points -/

/-- The nine transaction kinds that have a `Construct*` entry point. -/
inductive TxKind where
  | Withdraw
  | Transfer
  | CreateCollection
  | TransferNft
  | WithdrawNft
  | Offer
  | MintNft
  | AtomicMatch
  | CancelOffer
  deriving DecidableEq, Repr

/-- The canonical record type of a kind. -/
@[reducible] def TxKind.Info : TxKind → Type
  | .Withdraw => WithdrawTxInfo
  | .Transfer => TransferTxInfo
  | .CreateCollection => CreateCollectionTxInfo
  | .TransferNft => TransferNftTxInfo
  | .WithdrawNft => WithdrawNftTxInfo
  | .Offer => OfferTxInfo
  | .MintNft => MintNftTxInfo
  | .AtomicMatch => AtomicMatchTxInfo
  | .CancelOffer => CancelOfferTxInfo

/-- The request type of a kind. -/
@[reducible] def TxKind.Req : TxKind → Type
  | .Withdraw => WithdrawTxReq
  | .Transfer => TransferTxReq
  | .CreateCollection => CreateCollectionTxReq
  | .TransferNft => TransferNftTxReq
  | .WithdrawNft => WithdrawNftTxReq
  | .Offer => OfferTxInfo
  | .MintNft => MintNftTxReq
  | .AtomicMatch => AtomicMatchTxReq
  | .CancelOffer => CancelOfferTxReq

/-- The signature slot of a record. -/
def TxKind.Sig : (k : TxKind) → k.Info → Bytes
  | .Withdraw, r => r.Sig
  | .Transfer, r => r.Sig
  | .CreateCollection, r => r.Sig
  | .TransferNft, r => r.Sig
  | .WithdrawNft, r => r.Sig
  | .Offer, r => r.Sig
  | .MintNft, r => r.Sig
  | .AtomicMatch, r => r.Sig
  | .CancelOffer, r => r.Sig

/-- The assignment `convertedTx.Sig = signature`. -/
def TxKind.setSig : (k : TxKind) → k.Info → Bytes → k.Info
  | .Withdraw, r, s => { r with Sig := s }
  | .Transfer, r, s => { r with Sig := s }
  | .CreateCollection, r, s => { r with Sig := s }
  | .TransferNft, r, s => { r with Sig := s }
  | .WithdrawNft, r, s => { r with Sig := s }
  | .Offer, r, s => { r with Sig := s }
  | .MintNft, r, s => { r with Sig := s }
  | .AtomicMatch, r, s => { r with Sig := s }
  | .CancelOffer, r, s => { r with Sig := s }

/-- External package `txtypes` and `encoding/json`, per record kind: `Validate r` is
`r.Validate()` (`none` is the nil error), `Hash r hFunc` is `r.Hash(hFunc)` together with
the state the call leaves `hFunc` in, `Marshal r` is `json.Marshal(r)` read as a string. -/
structure TxTypes (H : Type) where
  Validate : (k : TxKind) → k.Info → Option LibError
  Hash : (k : TxKind) → k.Info → H → Except LibError Bytes × H
  Marshal : (k : TxKind) → k.Info → Except LibError String

/-- A call that leaves `txutils`, with the hash instance or data handed over. -/
inductive Call (H : Type) where
  | Validate
  | NewMiMC
  | Hash (hFunc : H)
  | Reset (hFunc : H)
  | Sign (msgHash : Bytes) (hFunc : H)
  | Marshal
  | parsePk (pkStr : String)
  | Verify (sig : Bytes) (msg : Bytes) (hFunc : H)
  deriving DecidableEq, Repr

/-- What a `Construct*` call returns, `(string, error)`, and the calls it made in
order. -/
structure Constructed (H : Type) where
  txInfo : String
  err : Option Error
  calls : List (Call H)
  deriving DecidableEq

/-- The statements every `Construct*` function runs on its converted record:
`Validate`, `mimc.NewMiMC`, `Hash`, `Reset`, `Sign`, the assignment of `Sig` and
`json.Marshal`, each error returned at once with the empty string
(e.g. construct_tx.go:46-65). -/
def signAndMarshal {H : Type} (T : TxTypes H) (M : MiMC H) (key : Signer H) (k : TxKind)
    (convertedTx : k.Info) : Constructed H :=
  match T.Validate k convertedTx with
  | some err => ⟨"", some (.lib err), [.Validate]⟩
  | none =>
    let hFunc := M.NewMiMC
    match T.Hash k convertedTx hFunc with
    | (.error err, _) => ⟨"", some (.lib err), [.Validate, .NewMiMC, .Hash hFunc]⟩
    | (.ok msgHash, hFunc1) =>
      let hFunc2 := M.Reset hFunc1
      match key.Sign msgHash hFunc2 with
      | .error err =>
        ⟨"", some (.lib err),
          [.Validate, .NewMiMC, .Hash hFunc, .Reset hFunc1, .Sign msgHash hFunc2]⟩
      | .ok signature =>
        let signedTx := k.setSig convertedTx signature
        match T.Marshal k signedTx with
        | .error err =>
          ⟨"", some (.lib err),
            [.Validate, .NewMiMC, .Hash hFunc, .Reset hFunc1, .Sign msgHash hFunc2,
              .Marshal]⟩
        | .ok txInfoBytes =>
          ⟨txInfoBytes, none,
            [.Validate, .NewMiMC, .Hash hFunc, .Reset hFunc1, .Sign msgHash hFunc2,
              .Marshal]⟩

/-- `ConstructWithdrawTxInfo` (construct_tx.go:19-42). -/
def ConstructWithdrawTxInfo {H : Type} (T : TxTypes H) (M : MiMC H) (key : Signer H)
    (tx : Option WithdrawTxReq) (ops : Option TransactOpts) : Except Panic (Constructed H) :=
  match ConvertWithdrawTx tx ops with
  | .error p => .error p
  | .ok convertedTx => .ok (signAndMarshal T M key .Withdraw convertedTx)

/-- `ConstructTransferTx` (construct_tx.go:44-66); the options come before the request. -/
def ConstructTransferTx {H : Type} (T : TxTypes H) (M : MiMC H) (key : Signer H)
    (ops : Option TransactOpts) (tx : Option TransferTxReq) : Except Panic (Constructed H) :=
  match ConvertTransferTx tx ops with
  | .error p => .error p
  | .ok convertedTx => .ok (signAndMarshal T M key .Transfer convertedTx)

/-- `ConstructCreateCollectionTx` (construct_tx.go:68-90). -/
def ConstructCreateCollectionTx {H : Type} (T : TxTypes H) (M : MiMC H) (key : Signer H)
    (tx : Option CreateCollectionTxReq) (ops : Option TransactOpts) :
    Except Panic (Constructed H) :=
  match ConvertCreateCollectionTxInfo tx ops with
  | .error p => .error p
  | .ok convertedTx => .ok (signAndMarshal T M key .CreateCollection convertedTx)

/-- `ConstructTransferNftTx` (construct_tx.go:92-114). -/
def ConstructTransferNftTx {H : Type} (T : TxTypes H) (M : MiMC H) (key : Signer H)
    (tx : Option TransferNftTxReq) (ops : Option TransactOpts) :
    Except Panic (Constructed H) :=
  match ConvertTransferNftTxInfo tx ops with
  | .error p => .error p
  | .ok convertedTx => .ok (signAndMarshal T M key .TransferNft convertedTx)

/-- `ConstructWithdrawNftTx` (construct_tx.go:116-138). -/
def ConstructWithdrawNftTx {H : Type} (T : TxTypes H) (M : MiMC H) (key : Signer H)
    (tx : Option WithdrawNftTxReq) (ops : Option TransactOpts) :
    Except Panic (Constructed H) :=
  match ConvertWithdrawNftTxInfo tx ops with
  | .error p => .error p
  | .ok convertedTx => .ok (signAndMarshal T M key .WithdrawNft convertedTx)

/-- `ConstructOfferTx` (construct_tx.go:140-162). -/
def ConstructOfferTx {H : Type} (T : TxTypes H) (M : MiMC H) (key : Signer H)
    (tx : Option OfferTxInfo) : Except Panic (Constructed H) :=
  match ConvertOfferTxInfo tx with
  | .error p => .error p
  | .ok convertedTx => .ok (signAndMarshal T M key .Offer convertedTx)

/-- `ConstructMintNftTx` (construct_tx.go:164-186). -/
def ConstructMintNftTx {H : Type} (T : TxTypes H) (M : MiMC H) (key : Signer H)
    (tx : Option MintNftTxReq) (ops : Option TransactOpts) : Except Panic (Constructed H) :=
  match ConvertMintNftTxInfo tx ops with
  | .error p => .error p
  | .ok convertedTx => .ok (signAndMarshal T M key .MintNft convertedTx)

/-- `ConstructAtomicMatchTx` (construct_tx.go:188-210). -/
def ConstructAtomicMatchTx {H : Type} (T : TxTypes H) (M : MiMC H) (key : Signer H)
    (tx : Option AtomicMatchTxReq) (ops : Option TransactOpts) :
    Except Panic (Constructed H) :=
  match ConvertAtomicMatchTxInfo tx ops with
  | .error p => .error p
  | .ok convertedTx => .ok (signAndMarshal T M key .AtomicMatch convertedTx)

/-- `ConstructCancelOfferTx` (construct_tx.go:212-234). -/
def ConstructCancelOfferTx {H : Type} (T : TxTypes H) (M : MiMC H) (key : Signer H)
    (tx : Option CancelOfferTxReq) (ops : Option TransactOpts) :
    Except Panic (Constructed H) :=
  match ConvertCancelOfferTxInfo tx ops with
  | .error p => .error p
  | .ok convertedTx => .ok (signAndMarshal T M key .CancelOffer convertedTx)

/-- The conversion each `Construct*` entry point starts with; `ConvertOfferTxInfo` takes
no options. -/
def Convert : (k : TxKind) → Option k.Req → Option TransactOpts → Except Panic k.Info
  | .Withdraw, tx, ops => ConvertWithdrawTx tx ops
  | .Transfer, tx, ops => ConvertTransferTx tx ops
  | .CreateCollection, tx, ops => ConvertCreateCollectionTxInfo tx ops
  | .TransferNft, tx, ops => ConvertTransferNftTxInfo tx ops
  | .WithdrawNft, tx, ops => ConvertWithdrawNftTxInfo tx ops
  | .Offer, tx, _ => ConvertOfferTxInfo tx
  | .MintNft, tx, ops => ConvertMintNftTxInfo tx ops
  | .AtomicMatch, tx, ops => ConvertAtomicMatchTxInfo tx ops
  | .CancelOffer, tx, ops => ConvertCancelOfferTxInfo tx ops

/-- The `Construct*` entry point of a kind. -/
def Construct {H : Type} (T : TxTypes H) (M : MiMC H) (key : Signer H) :
    (k : TxKind) → Option k.Req → Option TransactOpts → Except Panic (Constructed H)
  | .Withdraw, tx, ops => ConstructWithdrawTxInfo T M key tx ops
  | .Transfer, tx, ops => ConstructTransferTx T M key ops tx
  | .CreateCollection, tx, ops => ConstructCreateCollectionTx T M key tx ops
  | .TransferNft, tx, ops => ConstructTransferNftTx T M key tx ops
  | .WithdrawNft, tx, ops => ConstructWithdrawNftTx T M key tx ops
  | .Offer, tx, _ => ConstructOfferTx T M key tx
  | .MintNft, tx, ops => ConstructMintNftTx T M key tx ops
  | .AtomicMatch, tx, ops => ConstructAtomicMatchTx T M key tx ops
  | .CancelOffer, tx, ops => ConstructCancelOfferTx T M key tx ops

/-- `CalculateSignature` (client/l2_client_test.go:378-395): the signing pipeline of an
offer, returning `(signature, nil)` or `(nil, err)`. -/
def CalculateSignature {H : Type} (T : TxTypes H) (M : MiMC H) (signer : Signer H)
    (tx : Option OfferTxInfo) : Except Panic (Except Error Bytes) :=
  match ConvertOfferTxInfo tx with
  | .error p => .error p
  | .ok convertedTx =>
    match T.Validate .Offer convertedTx with
    | some err => .ok (.error (.lib err))
    | none =>
      let hFunc := M.NewMiMC
      match T.Hash .Offer convertedTx hFunc with
      | (.error err, _) => .ok (.error (.lib err))
      | (.ok msgHash, hFunc1) =>
        let hFunc2 := M.Reset hFunc1
        match signer.Sign msgHash hFunc2 with
        | .error err => .ok (.error (.lib err))
        | .ok signature => .ok (.ok signature)

/-! ## The verification entry points -/

/-- What a `Verify*TxSig` call returns (`none` is the nil error) and the calls it made
in order. -/
structure Verified (H : Type) where
  err : Option Error
  calls : List (Call H)
  deriving DecidableEq

/-- The statements every `Verify*TxSig` function runs (e.g.
verify_tx_signature.go:216-233): hash `hashed` with a new MiMC instance, decode the
public key, check `sig` against the commitment with a second new instance. -/
def hashAndVerify {H PK : Type} (T : TxTypes H) (M : MiMC H) (E : Eddsa H PK) (k : TxKind)
    (pubKey : String) (hashed : k.Info) (sig : Bytes) : Verified H :=
  let hFunc0 := M.NewMiMC
  match (T.Hash k hashed hFunc0).1 with
  | .error err => ⟨some (.lib err), [.NewMiMC, .Hash hFunc0]⟩
  | .ok message =>
    match parsePk E pubKey with
    | .error err => ⟨some err, [.NewMiMC, .Hash hFunc0, .parsePk pubKey]⟩
    | .ok pk =>
      let hFunc := M.NewMiMC
      match E.Verify pk sig message hFunc with
      | (_, some err) =>
        ⟨some (.lib err),
          [.NewMiMC, .Hash hFunc0, .parsePk pubKey, .NewMiMC, .Verify sig message hFunc]⟩
      | (valid, none) =>
        if !valid then
          ⟨some .invalidSignature,
            [.NewMiMC, .Hash hFunc0, .parsePk pubKey, .NewMiMC, .Verify sig message hFunc]⟩
        else
          ⟨none,
            [.NewMiMC, .Hash hFunc0, .parsePk pubKey, .NewMiMC, .Verify sig message hFunc]⟩

/-- `VerifyCancelOfferTxSig` (verify_tx_signature.go:215-234).  A nil record panics: its
fields are read by `Hash` and by `tx.Sig`. -/
def VerifyCancelOfferTxSig {H PK : Type} (T : TxTypes H) (M : MiMC H) (E : Eddsa H PK)
    (pubKey : String) (tx : Option CancelOfferTxInfo) : Except Panic (Verified H) :=
  match tx with
  | none => .error .nilDereference
  | some tx => .ok (hashAndVerify T M E .CancelOffer pubKey tx tx.Sig)

/-- `VerifyWithdrawNftTxSig` (verify_tx_signature.go:236-255). -/
def VerifyWithdrawNftTxSig {H PK : Type} (T : TxTypes H) (M : MiMC H) (E : Eddsa H PK)
    (pubKey : String) (tx : Option WithdrawNftTxInfo) : Except Panic (Verified H) :=
  match tx with
  | none => .error .nilDereference
  | some tx => .ok (hashAndVerify T M E .WithdrawNft pubKey tx tx.Sig)

/-- `VerifyTransferNftTxSig` (verify_tx_signature.go:257-276). -/
def VerifyTransferNftTxSig {H PK : Type} (T : TxTypes H) (M : MiMC H) (E : Eddsa H PK)
    (pubKey : String) (tx : Option TransferNftTxInfo) : Except Panic (Verified H) :=
  match tx with
  | none => .error .nilDereference
  | some tx => .ok (hashAndVerify T M E .TransferNft pubKey tx tx.Sig)

/-- `VerifyOfferTxSig` (verify_tx_signature.go:278-298): the converted record is hashed,
the signature checked is the one of the argument. -/
def VerifyOfferTxSig {H PK : Type} (T : TxTypes H) (M : MiMC H) (E : Eddsa H PK)
    (pubKey : String) (tx : Option OfferTxInfo) : Except Panic (Verified H) :=
  match ConvertOfferTxInfo tx, tx with
  | .ok convertedTx, some tx => .ok (hashAndVerify T M E .Offer pubKey convertedTx tx.Sig)
  | _, _ => .error .nilDereference

/-- `VerifyMintNftTxSig` (verify_tx_signature.go:300-319). -/
def VerifyMintNftTxSig {H PK : Type} (T : TxTypes H) (M : MiMC H) (E : Eddsa H PK)
    (pubKey : String) (tx : Option MintNftTxInfo) : Except Panic (Verified H) :=
  match tx with
  | none => .error .nilDereference
  | some tx => .ok (hashAndVerify T M E .MintNft pubKey tx tx.Sig)

/-- `VerifyCreateCollectionTxSig` (verify_tx_signature.go:321-340). -/
def VerifyCreateCollectionTxSig {H PK : Type} (T : TxTypes H) (M : MiMC H) (E : Eddsa H PK)
    (pubKey : String) (tx : Option CreateCollectionTxInfo) : Except Panic (Verified H) :=
  match tx with
  | none => .error .nilDereference
  | some tx => .ok (hashAndVerify T M E .CreateCollection pubKey tx tx.Sig)

/-- `VerifyAtomicMatchTxSig` (verify_tx_signature.go:342-361). -/
def VerifyAtomicMatchTxSig {H PK : Type} (T : TxTypes H) (M : MiMC H) (E : Eddsa H PK)
    (pubKey : String) (tx : Option AtomicMatchTxInfo) : Except Panic (Verified H) :=
  match tx with
  | none => .error .nilDereference
  | some tx => .ok (hashAndVerify T M E .AtomicMatch pubKey tx tx.Sig)

/-- The seven kinds that have a `Verify*TxSig` entry point. -/
inductive VerifyKind where
  | CancelOffer
  | WithdrawNft
  | TransferNft
  | Offer
  | MintNft
  | CreateCollection
  | AtomicMatch
  deriving DecidableEq, Repr

/-- The transaction kind a verification entry point is about. -/
@[reducible] def VerifyKind.kind : VerifyKind → TxKind
  | .CancelOffer => .CancelOffer
  | .WithdrawNft => .WithdrawNft
  | .TransferNft => .TransferNft
  | .Offer => .Offer
  | .MintNft => .MintNft
  | .CreateCollection => .CreateCollection
  | .AtomicMatch => .AtomicMatch

/-- The `Verify*TxSig` entry point of a kind. -/
def Verify {H PK : Type} (T : TxTypes H) (M : MiMC H) (E : Eddsa H PK) (pubKey : String) :
    (v : VerifyKind) → Option v.kind.Info → Except Panic (Verified H)
  | .CancelOffer, tx => VerifyCancelOfferTxSig T M E pubKey tx
  | .WithdrawNft, tx => VerifyWithdrawNftTxSig T M E pubKey tx
  | .TransferNft, tx => VerifyTransferNftTxSig T M E pubKey tx
  | .Offer, tx => VerifyOfferTxSig T M E pubKey tx
  | .MintNft, tx => VerifyMintNftTxSig T M E pubKey tx
  | .CreateCollection, tx => VerifyCreateCollectionTxSig T M E pubKey tx
  | .AtomicMatch, tx => VerifyAtomicMatchTxSig T M E pubKey tx

/-! ## A small concrete instance of the external packages

Used to evaluate the entry points on concrete inputs. -/

/-- The behaviour of the external `eddsa.PublicKey.SetBytes` of gnark-crypto, with the
decompression of a 32-byte point left as the parameter `decode`: a buffer shorter than 32
bytes gives `io.ErrShortBuffer` with 0 bytes read; otherwise the leading 32 bytes are
decoded and 32 is the number of bytes read, whatever follows them. -/
def gnarkSetBytes {PK : Type} (decode : Bytes → Except LibError PK) (zero : PK)
    (buf : Bytes) : PK × Int × Option LibError :=
  if buf.length < 32 then (zero, 0, some ⟨"short buffer"⟩)
  else
    match decode (buf.take 32) with
    | .error err => (zero, 32, some err)
    | .ok A => (A, 32, none)

/-- A hash instance whose state is the list of absorbed bytes. -/
def demoMiMC : MiMC (List Nat) where
  NewMiMC := []
  Reset := fun _ => []

/-- A toy signature scheme: a key is its 32 bytes, every 32-byte string is a point, the
signature of `msg` is `msg` followed by the key. -/
def demoEddsa : Eddsa (List Nat) Bytes where
  SetBytes := gnarkSetBytes (fun b => .ok b) []
  Verify := fun pk sig msg _ => (decide (sig = msg ++ pk), none)

/-- The signer of the toy scheme holding the key `sk`. -/
def demoSigner (sk : Bytes) : Signer (List Nat) where
  Sign := fun msg _ => .ok (msg ++ sk)

/-- A toy `txtypes`: `Validate` rejects a Withdraw or Transfer whose amount or sender
index is negative and accepts everything else; the commitment of an offer is made of its
offer id and NFT index, of any other record of one fixed byte, and hashing absorbs the
commitment into the instance; `Marshal` only tells whether the record is signed. -/
def demoTxTypes : TxTypes (List Nat) where
  Validate := fun k =>
    match k with
    | .Withdraw => fun r =>
      if r.FromAccountIndex < 0 ∨ r.AssetAmount.getD 0 < 0 then some ⟨"invalid withdraw"⟩
      else none
    | .Transfer => fun r =>
      if r.FromAccountIndex < 0 ∨ r.AssetAmount.getD 0 < 0 then some ⟨"invalid transfer"⟩
      else none
    | _ => fun _ => none
  Hash := fun k =>
    match k with
    | .Offer => fun r h =>
      (.ok [r.OfferId.toNat, r.NftIndex.toNat], h ++ [r.OfferId.toNat, r.NftIndex.toNat])
    | _ => fun _ h => (.ok [7], h ++ [7])
  Marshal := fun k r => .ok (if k.Sig r = [] then "unsigned" else "signed")

/-- The options of the example scenario of the spec, with expiry 1000. -/
def demoOps : TransactOpts where
  FromAccountIndex := 5
  ToAccountIndex := 2
  ToAccountAddress := "0xALICE"
  GasAccountIndex := 1
  GasFeeAssetId := 0
  GasFeeAssetAmount := some 0
  Memo := ""
  CallData := ""
  CallDataHash := []
  ExpiredAt := 1000
  Nonce := 3

/-- A buy offer with royalty and protocol rates set. -/
def demoBuyOffer : OfferTxInfo where
  Type_ := 0
  OfferId := 1
  AccountIndex := 5
  NftIndex := 16
  AssetId := 0
  AssetAmount := some 10000
  ListedAt := 100
  ExpiredAt := 1000
  RoyaltyRate := 200
  ChanelAccountIndex := 3
  ChanelRate := 10
  ProtocolRate := 30
  ProtocolAmount := some 300
  Sig := [1, 2]
  L1Sig := "buyer-l1"

/-- A sell offer with royalty and protocol rates set. -/
def demoSellOffer : OfferTxInfo where
  Type_ := 1
  OfferId := 9
  AccountIndex := 6
  NftIndex := 16
  AssetId := 0
  AssetAmount := some 10000
  ListedAt := 100
  ExpiredAt := 1000
  RoyaltyRate := 200
  ChanelAccountIndex := 3
  ChanelRate := 10
  ProtocolRate := 30
  ProtocolAmount := some 300
  Sig := [3, 4]
  L1Sig := "seller-l1"

/-- A 33-byte public-key string: 32 bytes `01` followed by one byte `00`. -/
def pk33 : String :=
  "010101010101010101010101010101010101010101010101010101010101010100"

/-- A 32-byte public-key string: 32 bytes `01`. -/
def pk32 : String :=
  "0101010101010101010101010101010101010101010101010101010101010101"

/-! ## Big-endian integers -/

/-- `big.Int.SetBytes(buf)`: the unsigned integer a byte string denotes in big-endian
order. -/
def bigIntSetBytes (buf : Bytes) : Nat :=
  buf.foldl (fun acc b => acc * 256 + b) 0

/-- The big-endian encoding of `n` in exactly `len` bytes (its `len` low-order bytes),
shorter values being padded with zero bytes on the left. -/
def bigEndian : Nat → Nat → Bytes
  | 0, _ => []
  | len + 1, n => bigEndian len (n / 256) ++ [n % 256]

/-- A ChangePubKey request whose X coordinate is the one byte `01`, the integer 1. -/
def demoShortKeyReq : ChangePubKeyReq where
  L1Address := "0xA"
  PubKeyX := [1]
  PubKeyY := List.replicate 32 7

/-- A toy `txtypes` whose `Hash` always fails, as on an amount that cannot be packed. -/
def overflowTxTypes : TxTypes (List Nat) where
  Validate := fun _ _ => none
  Hash := fun _ _ h => (.error ⟨"amount overflow"⟩, h)
  Marshal := fun _ _ => .ok "unsigned"

/-! ## Account-name hashing -/

/-- Go `strings.Split(s, ".")` on the characters of `s`: the pieces between the dots, one
more than there are dots.  A dot is one byte and occurs in no multi-byte character, so
splitting the characters and splitting the bytes give the same pieces. -/
def splitDot : List Char → List (List Char)
  | [] => [[]]
  | c :: cs =>
    if c = '.' then [] :: splitDot cs
    else
      match splitDot cs with
      | [] => [[c]]
      | w :: ws => (c :: w) :: ws

/-- Go `strings.Split(s, ".")`. -/
def stringsSplit (s : String) : List String :=
  (splitDot s.data).map String.mk

/-- `big.Int.FillBytes(buf)` for a non-negative value and a buffer of `len` bytes: the
big-endian encoding in exactly `len` bytes; it panics when the value does not fit. -/
def bigIntFillBytes (n len : Nat) : Except Panic Bytes :=
  if 256 ^ len ≤ n then .error .fillBytesOverflow
  else .ok (bigEndian len n)

/-- The constant `hextable` of `encoding/hex`, as the list of its characters. -/
def hextable : List Char :=
  "0123456789abcdef".data

/-- Go `hex.Encode`: two lowercase digits per byte, the high nibble first. -/
def encodeHex : Bytes → List Char
  | [] => []
  | b :: bs => hextable.getD (b / 16) '0' :: hextable.getD (b % 16) '0' :: encodeHex bs

/-- `common.Bytes2Hex` of go-ethereum, which is `hex.EncodeToString`. -/
def Bytes2Hex (b : Bytes) : String :=
  String.mk (encodeHex b)

/-- The BN254 scalar modulus `q` written out in `AccountNameHash`. -/
def scalarModulus : Nat :=
  21888242871839275222246405745257275088548364400416034343698204186575808495617

/-- `keccakHash` (construct_tx.go:236-239); `keccak` is the external
`crypto.Keccak256Hash`. -/
def keccakHash (keccak : Bytes → Bytes) (value : Bytes) : Bytes :=
  keccak value

/-- `AccountNameHash` (construct_tx.go:241-265), returning `(res, err)`. -/
def AccountNameHash (keccak : Bytes → Bytes) (accountName : String) :
    Except Panic (String × Option Error) :=
  match stringsSplit accountName with
  | [word0, word1] =>
    let q := scalarModulus
    let rootNode := List.replicate 32 0
    let hashOfBaseNode :=
      keccakHash keccak (rootNode ++ keccakHash keccak (stringBytes word1))
    let baseNode := bigIntSetBytes hashOfBaseNode % q
    match bigIntFillBytes baseNode 32 with
    | .error p => .error p
    | .ok baseNodeBytes =>
      let nameHash := keccakHash keccak (stringBytes word0)
      let subNameHash := keccakHash keccak (baseNodeBytes ++ nameHash)
      let subNode := bigIntSetBytes subNameHash % q
      match bigIntFillBytes subNode 32 with
      | .error p => .error p
      | .ok subNodeBytes => .ok (Bytes2Hex subNodeBytes, none)
  | _ => .ok ("", some .invalidAccountName)

/-- A stand-in for Keccak-256 on concrete inputs: 32 bytes, each the length of the
input modulo 256. -/
def demoKeccak (value : Bytes) : Bytes :=
  List.replicate 32 (value.length % 256)

/-! ## NFT content hashing -/

/-- The bytes `hex.DecodeString` returns next to its error: the bytes decoded before the
first byte that is not a digit, or before a trailing single digit. -/
def hexDecodePartial : List Nat → Bytes
  | p :: q :: rest =>
    match fromHexChar p, fromHexChar q with
    | some a, some b => (a * 16 + b) :: hexDecodePartial rest
    | _, _ => []
  | _ => []

/-- `has0xPrefix` of go-ethereum `common`, on the bytes of the string: at least two
bytes, the first `0` and the second `x` or `X`. -/
def has0xPrefix (str : List Nat) : Bool :=
  match str with
  | c0 :: c1 :: _ => c0 == 48 && (c1 == 120 || c1 == 88)
  | _ => false

/-- `common.Hex2Bytes` of go-ethereum: `hex.DecodeString` with the error dropped. -/
def Hex2Bytes (str : List Nat) : Bytes :=
  hexDecodePartial str

/-- `common.FromHex` of go-ethereum: an optional `0x` is removed, a string of odd length
gets a leading `0`, and the result is `Hex2Bytes` of what remains. -/
def FromHex (s : String) : Bytes :=
  let s0 := stringBytes s
  let s1 := if has0xPrefix s0 then s0.drop 2 else s0
  let s2 := if s1.length % 2 = 1 then 48 :: s1 else s1
  Hex2Bytes s2

/-- `ffmath.Mod(a, b)` of zkbnb-crypto, which is `big.Int.Mod`, on non-negative values:
it panics on a zero modulus. -/
def ffmathMod (a b : Nat) : Except Panic Nat :=
  if b = 0 then .error .divisionByZero
  else .ok (a % b)

/-- `NftContentHash` (construct_tx.go:267-269).  `Modulus` is the external constant
`curve.Modulus` of zkbnb-crypto. -/
def NftContentHash (Modulus : Nat) (nftContent : String) : Except Panic String :=
  match ffmathMod (bigIntSetBytes (FromHex nftContent)) Modulus with
  | .error p => .error p
  | .ok m =>
    match bigIntFillBytes m 32 with
    | .error p => .error p
    | .ok bytes => .ok (Bytes2Hex bytes)

/-- A signer of the toy scheme that refuses a hash instance holding absorbed data. -/
def strictSigner (sk : Bytes) : Signer (List Nat) where
  Sign := fun msg hFunc =>
    if hFunc = [] then .ok (msg ++ sk) else .error ⟨"hash instance not reset"⟩

/-- The toy scheme with a check that refuses a hash instance holding absorbed data. -/
def strictEddsa : Eddsa (List Nat) Bytes where
  SetBytes := gnarkSetBytes (fun b => .ok b) []
  Verify := fun pk sig msg hFunc =>
    if hFunc = [] then (decide (sig = msg ++ pk), none)
    else (false, some ⟨"hash instance not reset"⟩)

/-! ## Byte buffers as heap objects -/

/-- The byte buffers of the Go heap, by address: the backing arrays that slices refer to.
An address is allocated when it is below the number of buffers. -/
structure Buffers where
  bufs : List Bytes
  deriving DecidableEq, Repr

/-- A byte slice reduced to the address of its backing array; `none` is the nil slice. -/
abbrev Slice := Option Nat

/-- The bytes a slice holds. -/
def Buffers.read (h : Buffers) (s : Slice) : Bytes :=
  match s with
  | none => []
  | some a => h.bufs.getD a []

/-- A store into an allocated buffer, as a later write by the caller. -/
def Buffers.write (h : Buffers) (a : Nat) (b : Bytes) : Buffers :=
  ⟨h.bufs.set a b⟩

/-- `make([]byte, n)`: a new buffer of `n` zero bytes at the first unused address. -/
def Buffers.make (h : Buffers) (n : Nat) : Buffers × Nat :=
  (⟨h.bufs ++ [List.replicate n 0]⟩, h.bufs.length)

/-- `copy(dst, src)`: the first `min (len dst) (len src)` bytes of the buffer `dst` are
overwritten with those of `src`; no other buffer changes. -/
def Buffers.copy (h : Buffers) (dst : Nat) (src : Slice) : Buffers :=
  let d := h.read (some dst)
  let s := h.read src
  ⟨h.bufs.set dst (s.take d.length ++ d.drop s.length)⟩

/-- The buffers of `ConvertChangePubKeyTxInfo` (verify_tx_signature.go:80-90) as heap
objects: two buffers are made, the caller's slices `tx.PubKeyX` and `tx.PubKeyY` are
copied into them, and the record's `PubKeyX` and `PubKeyY` are the two new slices.
Returns the heap after the call and the addresses of the record's two slices. -/
def ConvertChangePubKeyTxInfoBuffers (h : Buffers) (txPubKeyX txPubKeyY : Slice) :
    Buffers × Nat × Nat :=
  let (h1, pubKeyX) := h.make 32
  let (h2, pubKeyY) := h1.make 32
  let h3 := h2.copy pubKeyX txPubKeyX
  let h4 := h3.copy pubKeyY txPubKeyY
  (h4, pubKeyX, pubKeyY)

/-- A heap with two buffers of the caller: 32 bytes `07` at address 0 and the two bytes
`01 02` at address 1. -/
def demoBuffers : Buffers where
  bufs := [List.replicate 32 7, [1, 2]]

/-! ## The conversions on the Go heap

The conversions take pointers.  Here the objects they point to live in a heap, so that
what a run reads and what it leaves behind can be stated. -/

/-- The part of the Go heap a conversion from requests of type `Req` to records of type
`Rec` works on: the request objects, the options objects and the record objects, each by
address.  An object is held with the values its fields lead to. -/
structure Heap (Req Rec : Type) where
  reqs : List Req
  opts : List TransactOpts
  recs : List Rec

/-- The request a pointer leads to; nil, or an address that holds no request, gives
`none`. -/
def Heap.loadReq {Req Rec : Type} (m : Heap Req Rec) (p : Option Nat) : Option Req :=
  p.bind (fun a => m.reqs.get? a)

/-- The options a pointer leads to. -/
def Heap.loadOpts {Req Rec : Type} (m : Heap Req Rec) (p : Option Nat) :
    Option TransactOpts :=
  p.bind (fun a => m.opts.get? a)

/-- `&T{...}`: a new record object at the first unused record address; every other
object stays as it is. -/
def Heap.alloc {Req Rec : Type} (m : Heap Req Rec) (r : Rec) : Heap Req Rec × Nat :=
  ({ m with recs := m.recs ++ [r] }, m.recs.length)

/-- What a run on the heap returns: the heap it leaves and the address of the new record,
or a panic. -/
abbrev HeapRun (Req Rec : Type) :=
  Heap Req Rec → Option Nat → Option Nat → Except Panic (Heap Req Rec × Nat)

/-- `ConvertTransferNftTxInfo` (verify_tx_signature.go:31-44) on the heap: the fields are
read through the two pointers and the literal becomes a new object. -/
def ConvertTransferNftTxInfoOnHeap : HeapRun TransferNftTxReq TransferNftTxInfo :=
  fun m tx ops =>
    match ConvertTransferNftTxInfo (m.loadReq tx) (m.loadOpts ops) with
    | .error p => .error p
    | .ok r => .ok (m.alloc r)

/-- `ConvertWithdrawNftTxInfo` (verify_tx_signature.go:46-57) on the heap. -/
def ConvertWithdrawNftTxInfoOnHeap : HeapRun WithdrawNftTxReq WithdrawNftTxInfo :=
  fun m tx ops =>
    match ConvertWithdrawNftTxInfo (m.loadReq tx) (m.loadOpts ops) with
    | .error p => .error p
    | .ok r => .ok (m.alloc r)

/-- `ConvertOfferTxInfo` (verify_tx_signature.go:59-77) on the heap; it takes no
options, the second pointer is not used. -/
def ConvertOfferTxInfoOnHeap : HeapRun OfferTxInfo OfferTxInfo :=
  fun m tx _ =>
    match ConvertOfferTxInfo (m.loadReq tx) with
    | .error p => .error p
    | .ok r => .ok (m.alloc r)

/-- `ConvertChangePubKeyTxInfo` (verify_tx_signature.go:79-97) on the heap. -/
def ConvertChangePubKeyTxInfoOnHeap : HeapRun ChangePubKeyReq ChangePubKeyInfo :=
  fun m tx ops =>
    match ConvertChangePubKeyTxInfo (m.loadReq tx) (m.loadOpts ops) with
    | .error p => .error p
    | .ok r => .ok (m.alloc r)

/-- `ConvertMintNftTxInfo` (verify_tx_signature.go:99-115) on the heap. -/
def ConvertMintNftTxInfoOnHeap : HeapRun MintNftTxReq MintNftTxInfo :=
  fun m tx ops =>
    match ConvertMintNftTxInfo (m.loadReq tx) (m.loadOpts ops) with
    | .error p => .error p
    | .ok r => .ok (m.alloc r)

/-- `ConvertTransferTx` (verify_tx_signature.go:117-132) on the heap. -/
def ConvertTransferTxOnHeap : HeapRun TransferTxReq TransferTxInfo :=
  fun m tx ops =>
    match ConvertTransferTx (m.loadReq tx) (m.loadOpts ops) with
    | .error p => .error p
    | .ok r => .ok (m.alloc r)

/-- `ConvertWithdrawTx` (verify_tx_signature.go:134-146) on the heap. -/
def ConvertWithdrawTxOnHeap : HeapRun WithdrawTxReq WithdrawTxInfo :=
  fun m tx ops =>
    match ConvertWithdrawTx (m.loadReq tx) (m.loadOpts ops) with
    | .error p => .error p
    | .ok r => .ok (m.alloc r)

/-- `ConvertCreateCollectionTxInfo` (verify_tx_signature.go:148-159) on the heap. -/
def ConvertCreateCollectionTxInfoOnHeap :
    HeapRun CreateCollectionTxReq CreateCollectionTxInfo :=
  fun m tx ops =>
    match ConvertCreateCollectionTxInfo (m.loadReq tx) (m.loadOpts ops) with
    | .error p => .error p
    | .ok r => .ok (m.alloc r)

/-- `ConvertAtomicMatchTxInfo` (verify_tx_signature.go:161-201) on the heap; the request
object is held with the two offers it points to, the record with its two new offers. -/
def ConvertAtomicMatchTxInfoOnHeap : HeapRun AtomicMatchTxReq AtomicMatchTxInfo :=
  fun m tx ops =>
    match ConvertAtomicMatchTxInfo (m.loadReq tx) (m.loadOpts ops) with
    | .error p => .error p
    | .ok r => .ok (m.alloc r)

/-- `ConvertCancelOfferTxInfo` (verify_tx_signature.go:203-213) on the heap. -/
def ConvertCancelOfferTxInfoOnHeap : HeapRun CancelOfferTxReq CancelOfferTxInfo :=
  fun m tx ops =>
    match ConvertCancelOfferTxInfo (m.loadReq tx) (m.loadOpts ops) with
    | .error p => .error p
    | .ok r => .ok (m.alloc r)

/-- The record a run returns: the object at the returned address of the heap it leaves;
a panic stays a panic. -/
def returned {Req Rec : Type} (out : Except Panic (Heap Req Rec × Nat)) :
    Except Panic (Option Rec) :=
  match out with
  | .error p => .error p
  | .ok (m, a) => .ok (m.recs.get? a)

/-- Determinism of a run: in any two heaps, on pointers that lead to equal requests and
equal options, the two runs panic alike or return records equal in every field. -/
def Deterministic {Req Rec : Type} (run : HeapRun Req Rec) : Prop :=
  ∀ (m1 m2 : Heap Req Rec) (tx1 tx2 ops1 ops2 : Option Nat),
    m1.loadReq tx1 = m2.loadReq tx2 → m1.loadOpts ops1 = m2.loadOpts ops2 →
      returned (run m1 tx1 ops1) = returned (run m2 tx2 ops2)

/-- A run modifies nothing: every request and options object is left as it was, every
record that existed is left as it was, and the record returned is a new object. -/
def LeavesInputs {Req Rec : Type} (run : HeapRun Req Rec) : Prop :=
  ∀ (m m2 : Heap Req Rec) (tx ops : Option Nat) (a : Nat),
    run m tx ops = .ok (m2, a) →
      m2.reqs = m.reqs ∧ m2.opts = m.opts ∧
      (∀ i, i < m.recs.length → m2.recs.get? i = m.recs.get? i) ∧
      a = m.recs.length ∧ m2.recs.length = m.recs.length + 1

/-- A run on the heap returns the record the conversion `f` computes from the objects the
two pointers lead to. -/
def Computes {Req Rec : Type} (run : HeapRun Req Rec)
    (f : Option Req → Option TransactOpts → Except Panic Rec) : Prop :=
  ∀ (m : Heap Req Rec) (tx ops : Option Nat),
    returned (run m tx ops) =
      match f (m.loadReq tx) (m.loadOpts ops) with
      | .error p => .error p
      | .ok r => .ok (some r)

/-- A heap holding the Transfer request of the example scenario at address 0 and the
demo options at address 0. -/
def demoHeap1 : Heap TransferTxReq TransferTxInfo where
  reqs := [{ To := "0xALICE", AssetId := 0, AssetAmount := some 1 }]
  opts := [demoOps]
  recs := []

/-- A record allocated by an earlier run. -/
def demoOldRecord : TransferTxInfo where
  FromAccountIndex := 1
  ToL1Address := ""
  AssetId := 2
  AssetAmount := none
  GasAccountIndex := 0
  GasFeeAssetId := 0
  GasFeeAssetAmount := none
  Memo := ""
  CallData := ""
  CallDataHash := []
  ExpiredAt := 0
  Nonce := 0
  Sig := []

/-- Another heap: the same request at address 1 and the same options at address 2, among
other requests and options, and one record already allocated. -/
def demoHeap2 : Heap TransferTxReq TransferTxInfo where
  reqs := [{ To := "0xBOB", AssetId := 4, AssetAmount := some 9 },
    { To := "0xALICE", AssetId := 0, AssetAmount := some 1 }]
  opts := [{ demoOps with Nonce := 8 }, { demoOps with FromAccountIndex := 77 }, demoOps]
  recs := [demoOldRecord]

/-! ## Theorems -/

/-- Every `Construct*` entry point whose conversion returns a record runs the shared
signing statements on that record. -/
theorem Construct_ok {H : Type} (T : TxTypes H) (M : MiMC H) (key : Signer H) (k : TxKind)
    (tx : Option k.Req) (ops : Option TransactOpts) (r : k.Info)
    (h : Convert k tx ops = .ok r) :
    Construct T M key k tx ops = .ok (signAndMarshal T M key k r) := by
  cases k <;>
    simp only [Construct, Convert, ConstructWithdrawTxInfo, ConstructTransferTx,
      ConstructCreateCollectionTx, ConstructTransferNftTx, ConstructWithdrawNftTx,
      ConstructOfferTx, ConstructMintNftTx, ConstructAtomicMatchTx,
      ConstructCancelOfferTx] at h ⊢ <;>
    rw [h]

/-- A `Construct*` entry point returns only if its conversion returns a record. -/
theorem Construct_returns {H : Type} (T : TxTypes H) (M : MiMC H) (key : Signer H)
    (k : TxKind) (tx : Option k.Req) (ops : Option TransactOpts) (out : Constructed H)
    (h : Construct T M key k tx ops = .ok out) :
    ∃ r, Convert k tx ops = .ok r ∧ out = signAndMarshal T M key k r := by
  cases hc : Convert k tx ops with
  | error p =>
    exfalso
    cases k <;>
      simp only [Construct, Convert, ConstructWithdrawTxInfo, ConstructTransferTx,
        ConstructCreateCollectionTx, ConstructTransferNftTx, ConstructWithdrawNftTx,
        ConstructOfferTx, ConstructMintNftTx, ConstructAtomicMatchTx,
        ConstructCancelOfferTx] at hc h <;>
      rw [hc] at h <;> cases h
  | ok r =>
    rw [Construct_ok T M key k tx ops r hc] at h
    exact ⟨r, rfl, (Except.ok.inj h).symm⟩

/-- Every `Verify*TxSig` entry point, on a non-nil record, hashes that record and checks
its own `Sig`; for an offer the converted record is the record itself. -/
theorem Verify_some {H PK : Type} (T : TxTypes H) (M : MiMC H) (E : Eddsa H PK)
    (pubKey : String) (v : VerifyKind) (tx : v.kind.Info) :
    Verify T M E pubKey v (some tx) =
      .ok (hashAndVerify T M E v.kind pubKey tx (v.kind.Sig tx)) := by
  cases v <;>
    simp only [Verify, VerifyCancelOfferTxSig, VerifyWithdrawNftTxSig,
      VerifyTransferNftTxSig, VerifyOfferTxSig, VerifyMintNftTxSig,
      VerifyCreateCollectionTxSig, VerifyAtomicMatchTxSig, ConvertOfferTxInfo,
      VerifyKind.kind, TxKind.Sig]

/-- No error of `hex.Decode` is the "invalid signature" or "invalid public key" value. -/
theorem hexDecode_error (l : List Nat) (e : Error) (h : hexDecode l = .error e) :
    e = .hexErrLength ∨ ∃ b, e = .hexInvalidByte b := by
  induction l using hexDecode.induct generalizing e with
  | case1 => simp [hexDecode] at h
  | case2 p hp => simp [hexDecode, hp] at h; exact Or.inr ⟨p, h.symm⟩
  | case3 p a hp => simp [hexDecode, hp] at h; exact Or.inl h.symm
  | case4 p q rest hp => simp [hexDecode, hp] at h; exact Or.inr ⟨p, h.symm⟩
  | case5 p q rest a hp hq => simp [hexDecode, hp, hq] at h; exact Or.inr ⟨q, h.symm⟩
  | case6 p q rest a hp b hq err hrest ih =>
    simp [hexDecode, hp, hq, hrest] at h
    exact ih err (by subst h; exact hrest) |>.elim (fun h1 => Or.inl (h ▸ h1))
      (fun ⟨b, h1⟩ => Or.inr ⟨b, h ▸ h1⟩)
  | case7 p q rest a hp b hq bs hrest ih => simp [hexDecode, hp, hq, hrest] at h

/-- C1: for every non-nil Transfer request and non-nil options, `ConvertTransferTx`
returns a record whose actor, destination and gas/memo/call-data/expiry/nonce fields are
the options' and whose asset id and amount are the request's, the amount being the same
integer; the request of the example scenario (asset 0, amount 1, options from 5, gas
account 1, gas asset 0, gas amount 0, nonce 3, any expiry) yields `FromAccountIndex = 5`,
`AssetAmount = 1`, `Nonce = 3`. -/
theorem ConvertTransferTx_copies_fields :
    (∀ (tx : TransferTxReq) (ops : TransactOpts),
      ∃ r, ConvertTransferTx (some tx) (some ops) = .ok r ∧
        r.FromAccountIndex = ops.FromAccountIndex ∧
        r.ToL1Address = ops.ToAccountAddress ∧
        r.AssetId = tx.AssetId ∧
        r.AssetAmount = tx.AssetAmount ∧
        r.GasAccountIndex = ops.GasAccountIndex ∧
        r.GasFeeAssetId = ops.GasFeeAssetId ∧
        r.GasFeeAssetAmount = ops.GasFeeAssetAmount ∧
        r.Memo = ops.Memo ∧
        r.CallData = ops.CallData ∧
        r.CallDataHash = ops.CallDataHash ∧
        r.ExpiredAt = ops.ExpiredAt ∧
        r.Nonce = ops.Nonce) ∧
    (∀ (T toIdx : Int) (dest memo callData : String) (cdHash : Bytes),
      ∃ r, ConvertTransferTx
          (some { To := "0xALICE", AssetId := 0, AssetAmount := some 1 })
          (some { FromAccountIndex := 5, ToAccountIndex := toIdx, ToAccountAddress := dest,
                  GasAccountIndex := 1, GasFeeAssetId := 0, GasFeeAssetAmount := some 0,
                  Memo := memo, CallData := callData, CallDataHash := cdHash,
                  ExpiredAt := T, Nonce := 3 }) = .ok r ∧
        r.FromAccountIndex = 5 ∧ r.AssetAmount = some 1 ∧ r.Nonce = 3 ∧ r.ExpiredAt = T) := by
  refine ⟨fun tx ops => ⟨_, rfl, ?_⟩, fun T toIdx dest memo callData cdHash => ⟨_, rfl, ?_⟩⟩
  · simp
  · simp

/-- What `parsePk` accepts: the strings that hex-decode to a buffer on which `SetBytes`
reports no error and 32 bytes read.  The length of the decoded buffer is not looked at. -/
theorem parsePk_ok_iff {H PK : Type} (E : Eddsa H PK) (pkStr : String) (pk : PK) :
    parsePk E pkStr = .ok pk ↔
      ∃ pkBytes, DecodeString pkStr = .ok pkBytes ∧ E.SetBytes pkBytes = (pk, 32, none) := by
  unfold parsePk
  cases hd : DecodeString pkStr with
  | error err => simp
  | ok pkBytes =>
    rcases hs : E.SetBytes pkBytes with ⟨pk1, size, _ | err⟩
    · by_cases h32 : size = 32
      · subst h32
        simp [hs]
      · simp [hs, h32]
    · simp [hs]

/-- The errors of `parsePk`: those of `hex.DecodeString`, those of `SetBytes`, and
"invalid public key". -/
theorem parsePk_error {H PK : Type} (E : Eddsa H PK) (pkStr : String) (e : Error)
    (h : parsePk E pkStr = .error e) :
    e = .hexErrLength ∨ (∃ b, e = .hexInvalidByte b) ∨ (∃ le, e = .lib le) ∨
      e = .invalidPublicKey := by
  unfold parsePk at h
  cases hd : DecodeString pkStr with
  | error err =>
    rw [hd] at h
    have he : err = e := Except.error.inj h
    subst he
    rcases hexDecode_error _ _ hd with h1 | h1
    · exact Or.inl h1
    · exact Or.inr (Or.inl h1)
  | ok pkBytes =>
    rcases hs : E.SetBytes pkBytes with ⟨pk1, size, _ | err⟩
    · by_cases h32 : size = 32
      · simp [hd, hs, h32] at h
      · simp [hd, hs, h32] at h
        exact Or.inr (Or.inr (Or.inr h.symm))
    · simp [hd, hs] at h
      exact Or.inr (Or.inr (Or.inl ⟨err, h.symm⟩))

/-- C2 (what the code does): with a `SetBytes` that reads the leading 32 bytes of its
buffer, as gnark-crypto's does, `parsePk` accepts the 66-digit string `pk33`, which
decodes to 33 bytes, and returns the key made of its first 32 bytes. -/
theorem parsePk_accepts_33_bytes :
    (DecodeString pk33).map List.length = .ok 33 ∧
      parsePk demoEddsa pk33 = .ok (List.replicate 32 1) :=
  ⟨rfl, rfl⟩

/-- C3: each of the seven `Verify*TxSig` entry points, on every key string and record,
returns; it returns nil exactly when hashing the record succeeds, `parsePk` succeeds and
the check of `tx.Sig` against the commitment returns `(true, nil)`; when hashing and
decoding succeed and the check returns `(false, nil)` the error is the "invalid signature"
value; a hash failure returns the hash error and a decode failure the decode error, and
neither is the "invalid signature" value. -/
theorem Verify_nil_iff {H PK : Type} (T : TxTypes H) (M : MiMC H) (E : Eddsa H PK)
    (pubKey : String) (v : VerifyKind) (tx : v.kind.Info) :
    ∃ out, Verify T M E pubKey v (some tx) = .ok out ∧
      (out.err = none ↔
        ∃ msg pk, (T.Hash v.kind tx M.NewMiMC).1 = .ok msg ∧ parsePk E pubKey = .ok pk ∧
          E.Verify pk (v.kind.Sig tx) msg M.NewMiMC = (true, none)) ∧
      (∀ msg pk, (T.Hash v.kind tx M.NewMiMC).1 = .ok msg → parsePk E pubKey = .ok pk →
        E.Verify pk (v.kind.Sig tx) msg M.NewMiMC = (false, none) →
        out.err = some .invalidSignature) ∧
      (∀ e, (T.Hash v.kind tx M.NewMiMC).1 = .error e →
        out.err = some (.lib e) ∧ Error.lib e ≠ .invalidSignature) ∧
      (∀ msg e, (T.Hash v.kind tx M.NewMiMC).1 = .ok msg → parsePk E pubKey = .error e →
        out.err = some e ∧ e ≠ .invalidSignature) := by
  refine ⟨_, Verify_some T M E pubKey v tx, ?_⟩
  unfold hashAndVerify
  cases hh : (T.Hash v.kind tx M.NewMiMC).1 with
  | error e0 => simp [hh]
  | ok msg =>
    cases hp : parsePk E pubKey with
    | error e1 =>
      have hne : e1 ≠ .invalidSignature := by
        rcases parsePk_error E pubKey e1 hp with h | ⟨b, h⟩ | ⟨le, h⟩ | h <;>
          subst h <;> simp
      simp [hh, hp, hne]
    | ok pk =>
      rcases hv : E.Verify pk (v.kind.Sig tx) msg M.NewMiMC with ⟨valid, _ | err⟩
      · cases valid <;> simp [hh, hp, hv]
      · simp [hh, hp, hv]

/-- The toy instance on an offer whose `Sig` is not the signature of its commitment:
`VerifyOfferTxSig` makes all five calls and returns the "invalid signature" value. -/
theorem VerifyOfferTxSig_wrong_signature :
    VerifyOfferTxSig demoTxTypes demoMiMC demoEddsa pk32 (some demoBuyOffer) =
      .ok ⟨some .invalidSignature,
        [.NewMiMC, .Hash [], .parsePk pk32, .NewMiMC, .Verify [1, 2] [1, 16] []]⟩ :=
  rfl

/-- The toy instance on a key string that is not hexadecimal: the error is the one of
`hex.DecodeString` and the signature check is not reached. -/
theorem VerifyOfferTxSig_bad_key :
    VerifyOfferTxSig demoTxTypes demoMiMC demoEddsa "0g" (some demoBuyOffer) =
      .ok ⟨some (.hexInvalidByte 103), [.NewMiMC, .Hash [], .parsePk "0g"]⟩ :=
  rfl

/-- A key string of 31 bytes is rejected by `SetBytes` with its short-buffer error. -/
theorem parsePk_rejects_31_bytes :
    parsePk demoEddsa "01010101010101010101010101010101010101010101010101010101010101" =
      .error (.lib ⟨"short buffer"⟩) :=
  rfl

/-- C4: for each of the nine `Construct*` entry points, when `Validate` rejects the
converted record with error `e` the call returns the empty string together with `e`, and
`Validate` is the only call made: neither `Hash` nor `Sign` is invoked. -/
theorem Construct_validate_rejects {H : Type} (T : TxTypes H) (M : MiMC H) (key : Signer H)
    (k : TxKind) (tx : Option k.Req) (ops : Option TransactOpts) (r : k.Info) (e : LibError)
    (hconv : Convert k tx ops = .ok r) (hval : T.Validate k r = some e) :
    ∃ out, Construct T M key k tx ops = .ok out ∧
      out.txInfo = "" ∧ out.err = some (.lib e) ∧ out.calls = [.Validate] ∧
      (∀ h, Call.Hash h ∉ out.calls) ∧ (∀ m h, Call.Sign m h ∉ out.calls) := by
  refine ⟨_, Construct_ok T M key k tx ops r hconv, ?_⟩
  simp [signAndMarshal, hval]

/-- C4, at a Transfer of the negative amount -1 with the toy validator. -/
theorem Construct_validate_rejects_witness :
    ∃ out, Construct demoTxTypes demoMiMC (demoSigner [9]) .Transfer
        (some { To := "0xALICE", AssetId := 0, AssetAmount := some (-1) })
        (some demoOps) = .ok out ∧
      out.txInfo = "" ∧ out.err = some (.lib ⟨"invalid transfer"⟩) ∧
      out.calls = [.Validate] ∧
      (∀ h, Call.Hash h ∉ out.calls) ∧ (∀ m h, Call.Sign m h ∉ out.calls) :=
  Construct_validate_rejects demoTxTypes demoMiMC (demoSigner [9]) .Transfer
    (some { To := "0xALICE", AssetId := 0, AssetAmount := some (-1) }) (some demoOps)
    _ ⟨"invalid transfer"⟩ rfl rfl

/-- C5: for each of the nine `Construct*` entry points and every input whose conversion
gives the record `r`, the call returns; the error is nil exactly when `Validate`, `Hash`,
`Sign` and `Marshal` all succeed; otherwise the string is empty and the error is the one
of the first failing stage in the order Validate, Hash, Sign, Marshal, handed on as it
is, and the calls made stop at that stage. -/
theorem Construct_fail_fast {H : Type} (T : TxTypes H) (M : MiMC H) (key : Signer H)
    (k : TxKind) (tx : Option k.Req) (ops : Option TransactOpts) (r : k.Info)
    (hconv : Convert k tx ops = .ok r) :
    ∃ out, Construct T M key k tx ops = .ok out ∧
      (out.err = none ↔
        ∃ msg h1 sig s, T.Validate k r = none ∧ T.Hash k r M.NewMiMC = (.ok msg, h1) ∧
          key.Sign msg (M.Reset h1) = .ok sig ∧ T.Marshal k (k.setSig r sig) = .ok s) ∧
      (∀ e, T.Validate k r = some e → out = ⟨"", some (.lib e), [.Validate]⟩) ∧
      (∀ e h1, T.Validate k r = none → T.Hash k r M.NewMiMC = (.error e, h1) →
        out = ⟨"", some (.lib e), [.Validate, .NewMiMC, .Hash M.NewMiMC]⟩) ∧
      (∀ msg h1 e, T.Validate k r = none → T.Hash k r M.NewMiMC = (.ok msg, h1) →
        key.Sign msg (M.Reset h1) = .error e →
        out = ⟨"", some (.lib e),
          [.Validate, .NewMiMC, .Hash M.NewMiMC, .Reset h1, .Sign msg (M.Reset h1)]⟩) ∧
      (∀ msg h1 sig e, T.Validate k r = none → T.Hash k r M.NewMiMC = (.ok msg, h1) →
        key.Sign msg (M.Reset h1) = .ok sig → T.Marshal k (k.setSig r sig) = .error e →
        out = ⟨"", some (.lib e),
          [.Validate, .NewMiMC, .Hash M.NewMiMC, .Reset h1, .Sign msg (M.Reset h1),
            .Marshal]⟩) := by
  refine ⟨_, Construct_ok T M key k tx ops r hconv, ⟨?_, ?_⟩, ?_, ?_, ?_, ?_⟩
  · intro hnone
    cases hv : T.Validate k r with
    | some e0 => simp [signAndMarshal, hv] at hnone
    | none =>
      rcases hh : T.Hash k r M.NewMiMC with ⟨e1 | msg, h1⟩
      · simp [signAndMarshal, hv, hh] at hnone
      · cases hs : key.Sign msg (M.Reset h1) with
        | error e2 => simp [signAndMarshal, hv, hh, hs] at hnone
        | ok sig =>
          cases hm : T.Marshal k (k.setSig r sig) with
          | error e3 => simp [signAndMarshal, hv, hh, hs, hm] at hnone
          | ok s => exact ⟨msg, h1, sig, s, rfl, rfl, hs, hm⟩
  · rintro ⟨msg, h1, sig, s, hv, hh, hs, hm⟩
    simp [signAndMarshal, hv, hh, hs, hm]
  · intro e hv
    simp [signAndMarshal, hv]
  · intro e h1 hv hh
    simp [signAndMarshal, hv, hh]
  · intro msg h1 e hv hh hs
    simp [signAndMarshal, hv, hh, hs]
  · intro msg h1 sig e hv hh hs hm
    simp [signAndMarshal, hv, hh, hs, hm]

/-- C5, at the Transfer of the example scenario: all four stages of the toy instance
succeed. -/
theorem Construct_fail_fast_witness :
    ∃ out, Construct demoTxTypes demoMiMC (demoSigner [9]) .Transfer
        (some { To := "0xALICE", AssetId := 0, AssetAmount := some 1 })
        (some demoOps) = .ok out ∧ out.err = none ∧ out.txInfo = "signed" := by
  obtain ⟨out, hout, hiff, -⟩ :=
    Construct_fail_fast demoTxTypes demoMiMC (demoSigner [9]) .Transfer
      (some { To := "0xALICE", AssetId := 0, AssetAmount := some 1 }) (some demoOps) _ rfl
  refine ⟨out, hout, hiff.2 ⟨[7], [7], [7, 9], "signed", rfl, rfl, rfl, rfl⟩, ?_⟩
  have h2 := Construct_ok demoTxTypes demoMiMC (demoSigner [9]) .Transfer
      (some { To := "0xALICE", AssetId := 0, AssetAmount := some 1 }) (some demoOps) _ rfl
  rw [h2] at hout
  rw [← Except.ok.inj hout]
  rfl

/-- Writing `Sig` and reading it back gives the written value, and writing the old value
back restores the record: `setSig` touches no other field. -/
theorem setSig_only_Sig (k : TxKind) (r : k.Info) (sig : Bytes) :
    k.Sig (k.setSig r sig) = sig ∧ k.setSig (k.setSig r sig) (k.Sig r) = r := by
  cases k <;> exact ⟨rfl, rfl⟩

/-- What a successful run of the shared signing statements returns. -/
theorem signAndMarshal_ok {H : Type} (T : TxTypes H) (M : MiMC H) (key : Signer H)
    (k : TxKind) (r : k.Info) (hok : (signAndMarshal T M key k r).err = none) :
    ∃ msg h1 sig, T.Validate k r = none ∧ T.Hash k r M.NewMiMC = (.ok msg, h1) ∧
      key.Sign msg (M.Reset h1) = .ok sig ∧
      T.Marshal k (k.setSig r sig) = .ok (signAndMarshal T M key k r).txInfo := by
  cases hv : T.Validate k r with
  | some e0 => simp [signAndMarshal, hv] at hok
  | none =>
    rcases hh : T.Hash k r M.NewMiMC with ⟨e1 | msg, h1⟩
    · simp [signAndMarshal, hv, hh] at hok
    · cases hs : key.Sign msg (M.Reset h1) with
      | error e2 => simp [signAndMarshal, hv, hh, hs] at hok
      | ok sig =>
        cases hm : T.Marshal k (k.setSig r sig) with
        | error e3 => simp [signAndMarshal, hv, hh, hs, hm] at hok
        | ok s =>
          refine ⟨msg, h1, sig, rfl, rfl, hs, ?_⟩
          simp [signAndMarshal, hv, hh, hs, hm]

/-- C6: for each of the nine `Construct*` entry points and every input on which it
succeeds, the returned string is the serialization of the converted record `r` with only
`Sig` set, where `Sig` is `key.Sign` of the commitment `Hash(r)` under the reset hash
instance; restoring the old `Sig` gives `r` back, so no other field differs.  When
`Reset` returns the state of a new instance, the signature is `key.Sign` of the
commitment under a new instance, so any second successful run, of any kind, whose
record has the same commitment, serializes its record with the same signature. -/
theorem Construct_sets_only_Sig {H : Type} (T : TxTypes H) (M : MiMC H) (key : Signer H)
    (k : TxKind) (tx : Option k.Req) (ops : Option TransactOpts) (out : Constructed H)
    (hout : Construct T M key k tx ops = .ok out) (hok : out.err = none) :
    ∃ r msg h1 sig, Convert k tx ops = .ok r ∧
      T.Hash k r M.NewMiMC = (.ok msg, h1) ∧
      key.Sign msg (M.Reset h1) = .ok sig ∧
      T.Marshal k (k.setSig r sig) = .ok out.txInfo ∧
      k.Sig (k.setSig r sig) = sig ∧
      k.setSig (k.setSig r sig) (k.Sig r) = r ∧
      ((∀ h, M.Reset h = M.NewMiMC) →
        key.Sign msg M.NewMiMC = .ok sig ∧
        ∀ (k2 : TxKind) (tx2 : Option k2.Req) (ops2 : Option TransactOpts)
          (out2 : Constructed H) (r2 : k2.Info) (h2 : H),
          Construct T M key k2 tx2 ops2 = .ok out2 → out2.err = none →
          Convert k2 tx2 ops2 = .ok r2 → T.Hash k2 r2 M.NewMiMC = (.ok msg, h2) →
          T.Marshal k2 (k2.setSig r2 sig) = .ok out2.txInfo) := by
  obtain ⟨r, hconv, rfl⟩ := Construct_returns T M key k tx ops out hout
  obtain ⟨msg, h1, sig, -, hh, hs, hm⟩ := signAndMarshal_ok T M key k r hok
  refine ⟨r, msg, h1, sig, hconv, hh, hs, hm, (setSig_only_Sig k r sig).1,
    (setSig_only_Sig k r sig).2, ?_⟩
  intro hreset
  rw [hreset] at hs
  refine ⟨hs, ?_⟩
  intro k2 tx2 ops2 out2 r2 h2 hout2 hok2 hconv2 hh2
  obtain ⟨r2', hconv2', rfl⟩ := Construct_returns T M key k2 tx2 ops2 out2 hout2
  have hr : r2' = r2 := Except.ok.inj (hconv2'.symm.trans hconv2)
  subst hr
  obtain ⟨msg2, h12, sig2, -, hh2', hs2, hm2⟩ := signAndMarshal_ok T M key k2 r2' hok2
  rw [hh2] at hh2'
  have hmsg : msg = msg2 := by
    have := congrArg Prod.fst hh2'
    exact Except.ok.inj this
  subst hmsg
  rw [hreset] at hs2
  have hsig : sig = sig2 := Except.ok.inj (hs.symm.trans hs2)
  subst hsig
  exact hm2

/-- C6, at the Transfer of the example scenario with the toy instance. -/
theorem Construct_sets_only_Sig_witness :
    ∃ r msg h1 sig, Convert .Transfer
        (some { To := "0xALICE", AssetId := 0, AssetAmount := some 1 }) (some demoOps)
        = .ok r ∧
      demoTxTypes.Hash .Transfer r demoMiMC.NewMiMC = (.ok msg, h1) ∧
      (demoSigner [9]).Sign msg (demoMiMC.Reset h1) = .ok sig ∧
      demoTxTypes.Marshal .Transfer (TxKind.setSig .Transfer r sig) = .ok "signed" ∧
      sig = [7, 9] := by
  obtain ⟨r, msg, h1, sig, hc, hh, hs, hm, -⟩ :=
    Construct_sets_only_Sig demoTxTypes demoMiMC (demoSigner [9]) .Transfer
      (some { To := "0xALICE", AssetId := 0, AssetAmount := some 1 }) (some demoOps)
      _ rfl rfl
  refine ⟨r, msg, h1, sig, hc, hh, hs, hm, ?_⟩
  have hmsg : msg = [7] := by
    have := congrArg Prod.fst hh
    exact (Except.ok.inj this).symm
  subst hmsg
  exact (Except.ok.inj hs).symm

/-- C7: round trip of the Offer flow.  Let `key` and `pk` be a matching pair for which the
primitive is correct (whatever `key.Sign` produces for a commitment under a new hash
instance, `pk.Verify` accepts under a new instance), let `pkStr` be the hex string that
`parsePk` decodes to `pk`, let `Reset` give the state of a new instance, and let the
commitment of an offer not cover its signature slot.  If the signing pipeline
(`ConvertOfferTxInfo`, `Validate`, `Hash` with a new instance, `Reset`, `Sign`) succeeds
on `tx` with signature `s`, then `VerifyOfferTxSig` on `tx` with `Sig := s` returns nil. -/
theorem Offer_sign_then_verify {H PK : Type} (T : TxTypes H) (M : MiMC H) (E : Eddsa H PK)
    (key : Signer H) (pk : PK) (pkStr : String) (tx : OfferTxInfo) (s : Bytes)
    (hprim : ∀ m sig, key.Sign m M.NewMiMC = .ok sig →
      E.Verify pk sig m M.NewMiMC = (true, none))
    (hreset : ∀ h, M.Reset h = M.NewMiMC)
    (hpk : parsePk E pkStr = .ok pk)
    (hhash : ∀ (r : OfferTxInfo) (sig : Bytes) (h : H),
      T.Hash .Offer { r with Sig := sig } h = T.Hash .Offer r h)
    (hsign : CalculateSignature T M key (some tx) = .ok (.ok s)) :
    ∃ out, VerifyOfferTxSig T M E pkStr (some { tx with Sig := s }) = .ok out ∧
      out.err = none := by
  have hconv : ConvertOfferTxInfo (some tx) = .ok tx := rfl
  simp only [CalculateSignature, hconv] at hsign
  cases hv : T.Validate .Offer tx with
  | some e0 => simp [hv] at hsign
  | none =>
    rcases hh : T.Hash .Offer tx M.NewMiMC with ⟨e1 | msg, h1⟩
    · simp [hv, hh] at hsign
    · cases hs : key.Sign msg (M.Reset h1) with
      | error e2 => simp [hv, hh, hs] at hsign
      | ok sig =>
        simp [hv, hh, hs] at hsign
        subst hsign
        rw [hreset] at hs
        have hver := hprim msg sig hs
        have hh2 : (T.Hash .Offer { tx with Sig := sig } M.NewMiMC).1 = .ok msg := by
          rw [hhash, hh]
        refine ⟨_, Verify_some T M E pkStr .Offer { tx with Sig := sig }, ?_⟩
        simp [hashAndVerify, hh2, hpk, TxKind.Sig, hver]

/-- C7, with the toy scheme: the key of 32 bytes `01` signs the demo buy offer and the
signature verifies under the key string `pk32`. -/
theorem Offer_sign_then_verify_witness :
    CalculateSignature demoTxTypes demoMiMC (demoSigner (List.replicate 32 1))
        (some demoBuyOffer) = .ok (.ok ([1, 16] ++ List.replicate 32 1)) ∧
      ∃ out, VerifyOfferTxSig demoTxTypes demoMiMC demoEddsa pk32
          (some { demoBuyOffer with Sig := [1, 16] ++ List.replicate 32 1 }) = .ok out ∧
        out.err = none :=
  ⟨rfl,
    Offer_sign_then_verify demoTxTypes demoMiMC demoEddsa
      (demoSigner (List.replicate 32 1)) (List.replicate 32 1) pk32 demoBuyOffer
      ([1, 16] ++ List.replicate 32 1)
      (by
        intro m sig h
        have hsig : m ++ List.replicate 32 1 = sig := Except.ok.inj h
        subst hsig
        simp [demoEddsa])
      (fun _ => rfl) rfl (fun _ _ _ => rfl) rfl⟩

/-- C8: `ConvertOfferTxInfo` returns, for every non-nil offer, a record each of whose
fifteen fields equals the same field of its argument; the result is the argument, and
converting the result again returns it again. -/
theorem ConvertOfferTxInfo_identity (tx : OfferTxInfo) :
    ∃ r, ConvertOfferTxInfo (some tx) = .ok r ∧
      r.Type_ = tx.Type_ ∧ r.OfferId = tx.OfferId ∧ r.AccountIndex = tx.AccountIndex ∧
      r.NftIndex = tx.NftIndex ∧ r.AssetId = tx.AssetId ∧
      r.AssetAmount = tx.AssetAmount ∧ r.ListedAt = tx.ListedAt ∧
      r.ExpiredAt = tx.ExpiredAt ∧ r.RoyaltyRate = tx.RoyaltyRate ∧
      r.ChanelAccountIndex = tx.ChanelAccountIndex ∧ r.ChanelRate = tx.ChanelRate ∧
      r.ProtocolRate = tx.ProtocolRate ∧ r.ProtocolAmount = tx.ProtocolAmount ∧
      r.Sig = tx.Sig ∧ r.L1Sig = tx.L1Sig ∧
      r = tx ∧ ConvertOfferTxInfo (some r) = ConvertOfferTxInfo (some tx) := by
  refine ⟨_, rfl, ?_⟩
  simp

/-- C9 (as stated, refuted): on the demo offers, whose sell side has royalty rate 200,
protocol rate 30 and protocol amount 300, the sell offer of the AtomicMatch record is not
`ConvertOfferTxInfo` of the request's sell offer: its royalty rate is 0. -/
theorem ConvertAtomicMatchTxInfo_sell_differs :
    ∃ r s, ConvertAtomicMatchTxInfo
        (some { BuyOffer := some demoBuyOffer, SellOffer := some demoSellOffer })
        (some demoOps) = .ok r ∧
      ConvertOfferTxInfo (some demoSellOffer) = .ok s ∧
      r.SellOffer ≠ some s ∧
      r.SellOffer.map (fun o => o.RoyaltyRate) = some 0 ∧ s.RoyaltyRate = 200 :=
  ⟨_, _, rfl, rfl, by decide, rfl, rfl⟩

/-- C9 (amended): for every AtomicMatch request with non-nil offers and every options
value, the record's buy offer is `ConvertOfferTxInfo` of the request's buy offer, and its
sell offer is `ConvertOfferTxInfo` of the request's sell offer with `RoyaltyRate`,
`ProtocolRate` and `ProtocolAmount` left at their zero values; the two agree in full when
the request's sell offer has these three fields zero. -/
theorem ConvertAtomicMatchTxInfo_nests_offers (buy sell : OfferTxInfo) (ops : TransactOpts) :
    ∃ r b s, ConvertAtomicMatchTxInfo (some { BuyOffer := some buy, SellOffer := some sell })
        (some ops) = .ok r ∧
      ConvertOfferTxInfo (some buy) = .ok b ∧ ConvertOfferTxInfo (some sell) = .ok s ∧
      r.BuyOffer = some b ∧
      r.SellOffer =
        some { s with RoyaltyRate := 0, ProtocolRate := 0, ProtocolAmount := none } ∧
      (sell.RoyaltyRate = 0 → sell.ProtocolRate = 0 → sell.ProtocolAmount = none →
        r.SellOffer = some s) := by
  refine ⟨_, _, _, rfl, rfl, rfl, rfl, rfl, ?_⟩
  intro h1 h2 h3
  cases sell
  simp_all

/-- C10: for every AtomicMatch request with non-nil offers and every options value, the
record carries the four nested signatures through unchanged and in place: the buy offer
keeps the buy side's `Sig` and `L1Sig`, the sell offer the sell side's.  The conversion
takes no key. -/
theorem ConvertAtomicMatchTxInfo_keeps_signatures (buy sell : OfferTxInfo)
    (ops : TransactOpts) :
    ∃ r b s, ConvertAtomicMatchTxInfo (some { BuyOffer := some buy, SellOffer := some sell })
        (some ops) = .ok r ∧
      r.BuyOffer = some b ∧ r.SellOffer = some s ∧
      b.Sig = buy.Sig ∧ b.L1Sig = buy.L1Sig ∧ s.Sig = sell.Sig ∧ s.L1Sig = sell.L1Sig :=
  ⟨_, _, _, rfl, rfl, rfl, rfl, rfl, rfl, rfl⟩

/-- C11: each of the nine conversions that take a request and options returns, on non-nil
arguments (and, for AtomicMatch, non-nil offers), a record whose `GasAccountIndex`,
`GasFeeAssetId`, `GasFeeAssetAmount`, `Nonce` and `ExpiredAt` are the options' and whose
own `Sig` is empty; every record `ConvertAtomicMatchTxInfo` returns, on any input, has
these properties. -/
theorem Convert_gas_nonce_expiry_from_ops (ops : TransactOpts) :
    (∀ tx, ∃ r, ConvertTransferTx (some tx) (some ops) = .ok r ∧
      r.GasAccountIndex = ops.GasAccountIndex ∧ r.GasFeeAssetId = ops.GasFeeAssetId ∧
      r.GasFeeAssetAmount = ops.GasFeeAssetAmount ∧ r.Nonce = ops.Nonce ∧
      r.ExpiredAt = ops.ExpiredAt ∧ r.Sig = []) ∧
    (∀ tx, ∃ r, ConvertWithdrawTx (some tx) (some ops) = .ok r ∧
      r.GasAccountIndex = ops.GasAccountIndex ∧ r.GasFeeAssetId = ops.GasFeeAssetId ∧
      r.GasFeeAssetAmount = ops.GasFeeAssetAmount ∧ r.Nonce = ops.Nonce ∧
      r.ExpiredAt = ops.ExpiredAt ∧ r.Sig = []) ∧
    (∀ tx, ∃ r, ConvertWithdrawNftTxInfo (some tx) (some ops) = .ok r ∧
      r.GasAccountIndex = ops.GasAccountIndex ∧ r.GasFeeAssetId = ops.GasFeeAssetId ∧
      r.GasFeeAssetAmount = ops.GasFeeAssetAmount ∧ r.Nonce = ops.Nonce ∧
      r.ExpiredAt = ops.ExpiredAt ∧ r.Sig = []) ∧
    (∀ tx, ∃ r, ConvertTransferNftTxInfo (some tx) (some ops) = .ok r ∧
      r.GasAccountIndex = ops.GasAccountIndex ∧ r.GasFeeAssetId = ops.GasFeeAssetId ∧
      r.GasFeeAssetAmount = ops.GasFeeAssetAmount ∧ r.Nonce = ops.Nonce ∧
      r.ExpiredAt = ops.ExpiredAt ∧ r.Sig = []) ∧
    (∀ tx, ∃ r, ConvertMintNftTxInfo (some tx) (some ops) = .ok r ∧
      r.GasAccountIndex = ops.GasAccountIndex ∧ r.GasFeeAssetId = ops.GasFeeAssetId ∧
      r.GasFeeAssetAmount = ops.GasFeeAssetAmount ∧ r.Nonce = ops.Nonce ∧
      r.ExpiredAt = ops.ExpiredAt ∧ r.Sig = []) ∧
    (∀ tx, ∃ r, ConvertCreateCollectionTxInfo (some tx) (some ops) = .ok r ∧
      r.GasAccountIndex = ops.GasAccountIndex ∧ r.GasFeeAssetId = ops.GasFeeAssetId ∧
      r.GasFeeAssetAmount = ops.GasFeeAssetAmount ∧ r.Nonce = ops.Nonce ∧
      r.ExpiredAt = ops.ExpiredAt ∧ r.Sig = []) ∧
    (∀ tx, ∃ r, ConvertCancelOfferTxInfo (some tx) (some ops) = .ok r ∧
      r.GasAccountIndex = ops.GasAccountIndex ∧ r.GasFeeAssetId = ops.GasFeeAssetId ∧
      r.GasFeeAssetAmount = ops.GasFeeAssetAmount ∧ r.Nonce = ops.Nonce ∧
      r.ExpiredAt = ops.ExpiredAt ∧ r.Sig = []) ∧
    (∀ tx, ∃ r, ConvertChangePubKeyTxInfo (some tx) (some ops) = .ok r ∧
      r.GasAccountIndex = ops.GasAccountIndex ∧ r.GasFeeAssetId = ops.GasFeeAssetId ∧
      r.GasFeeAssetAmount = ops.GasFeeAssetAmount ∧ r.Nonce = ops.Nonce ∧
      r.ExpiredAt = ops.ExpiredAt ∧ r.Sig = []) ∧
    (∀ buy sell, ∃ r, ConvertAtomicMatchTxInfo
        (some { BuyOffer := some buy, SellOffer := some sell }) (some ops) = .ok r ∧
      r.GasAccountIndex = ops.GasAccountIndex ∧ r.GasFeeAssetId = ops.GasFeeAssetId ∧
      r.GasFeeAssetAmount = ops.GasFeeAssetAmount ∧ r.Nonce = ops.Nonce ∧
      r.ExpiredAt = ops.ExpiredAt ∧ r.Sig = []) ∧
    (∀ tx r, ConvertAtomicMatchTxInfo tx (some ops) = .ok r →
      r.GasAccountIndex = ops.GasAccountIndex ∧ r.GasFeeAssetId = ops.GasFeeAssetId ∧
      r.GasFeeAssetAmount = ops.GasFeeAssetAmount ∧ r.Nonce = ops.Nonce ∧
      r.ExpiredAt = ops.ExpiredAt ∧ r.Sig = []) := by
  refine ⟨fun _ => ⟨_, rfl, ?_⟩, fun _ => ⟨_, rfl, ?_⟩, fun _ => ⟨_, rfl, ?_⟩,
    fun _ => ⟨_, rfl, ?_⟩, fun _ => ⟨_, rfl, ?_⟩, fun _ => ⟨_, rfl, ?_⟩,
    fun _ => ⟨_, rfl, ?_⟩, fun _ => ⟨_, rfl, ?_⟩, fun _ _ => ⟨_, rfl, ?_⟩, ?_⟩
  iterate 9 simp
  intro tx r h
  rcases tx with _ | ⟨_ | buy, _ | sell⟩ <;>
    simp only [ConvertAtomicMatchTxInfo, reduceCtorEq] at h
  cases h
  simp

/-- The buffer `copyInto n src` has exactly `n` bytes. -/
theorem copyInto_length (n : Nat) (src : Bytes) : (copyInto n src).length = n := by
  simp only [copyInto, List.length_append, List.length_take, List.length_replicate]
  omega

/-- A source of exactly `n` bytes is copied whole. -/
theorem copyInto_of_length_eq (n : Nat) (src : Bytes) (h : src.length = n) :
    copyInto n src = src := by
  subst h
  simp [copyInto]

/-- C11, at the Withdraw request of the test `TestWithdrawBNB` with the demo options. -/
theorem Convert_gas_nonce_expiry_from_ops_witness :
    ∃ r, ConvertWithdrawTx
        (some { AssetId := 0, AssetAmount := some 100, ToAddress := "0x8b2C" })
        (some demoOps) = .ok r ∧
      r.GasAccountIndex = 1 ∧ r.GasFeeAssetId = 0 ∧ r.GasFeeAssetAmount = some 0 ∧
      r.Nonce = 3 ∧ r.ExpiredAt = 1000 ∧ r.Sig = [] :=
  (Convert_gas_nonce_expiry_from_ops demoOps).2.1
    { AssetId := 0, AssetAmount := some 100, ToAddress := "0x8b2C" }

/-- Reading an allocated buffer is not affected by buffers allocated later. -/
theorem Buffers.read_append (l m : List Bytes) (s : Slice)
    (hs : ∀ a, s = some a → a < l.length) :
    (Buffers.mk (l ++ m)).read s = (Buffers.mk l).read s := by
  rcases s with _ | a
  · rfl
  · simp [Buffers.read, List.getD_eq_getElem?_getD, List.getElem?_append_left (hs a rfl)]

/-- `copy` into a buffer of `n` zero bytes leaves `copyInto n` of the source there. -/
theorem Buffers.copy_into_zeros (l m : List Bytes) (n : Nat) (src : Slice) :
    (Buffers.mk (l ++ List.replicate n 0 :: m)).copy l.length src =
      ⟨l ++ copyInto n ((Buffers.mk (l ++ List.replicate n 0 :: m)).read src) :: m⟩ := by
  have hd : (Buffers.mk (l ++ List.replicate n 0 :: m)).read (some l.length) =
      List.replicate n 0 := by
    simp [Buffers.read, List.getD_eq_getElem?_getD,
      List.getElem?_append_right (le_refl l.length)]
  simp only [Buffers.copy, hd, List.length_replicate, List.drop_replicate, copyInto]
  simp

/-- The heap after `ConvertChangePubKeyTxInfo`: the buffers that existed before, followed
by the two new ones, which hold the copies. -/
theorem ConvertChangePubKeyTxInfoBuffers_eq (h : Buffers) (sx sy : Slice)
    (hx : ∀ a, sx = some a → a < h.bufs.length)
    (hy : ∀ a, sy = some a → a < h.bufs.length) :
    ConvertChangePubKeyTxInfoBuffers h sx sy =
      (⟨h.bufs ++ [copyInto 32 (h.read sx), copyInto 32 (h.read sy)]⟩,
        h.bufs.length, h.bufs.length + 1) := by
  have h1 : (Buffers.mk (h.bufs ++ [List.replicate 32 0] ++ [List.replicate 32 0])).copy
      h.bufs.length sx =
      ⟨h.bufs ++ copyInto 32 (h.read sx) :: [List.replicate 32 0]⟩ := by
    rw [List.append_assoc]
    rw [show [List.replicate 32 0] ++ [List.replicate 32 0] =
      List.replicate 32 0 :: [List.replicate 32 0] from rfl]
    rw [Buffers.copy_into_zeros, Buffers.read_append _ _ _ hx]
  have h2 : (Buffers.mk (h.bufs ++ copyInto 32 (h.read sx) :: [List.replicate 32 0])).copy
      (h.bufs.length + 1) sy =
      ⟨h.bufs ++ [copyInto 32 (h.read sx), copyInto 32 (h.read sy)]⟩ := by
    have e1 : h.bufs ++ copyInto 32 (h.read sx) :: [List.replicate 32 0] =
        (h.bufs ++ [copyInto 32 (h.read sx)]) ++ List.replicate 32 0 :: [] := by simp
    have e2 : h.bufs.length + 1 = (h.bufs ++ [copyInto 32 (h.read sx)]).length := by simp
    have e3 := Buffers.read_append h.bufs
      ([copyInto 32 (h.read sx)] ++ [List.replicate 32 0]) sy hy
    rw [← List.append_assoc] at e3
    rw [e1, e2, Buffers.copy_into_zeros, e3]
    simp
  simp only [ConvertChangePubKeyTxInfoBuffers, Buffers.make, h1, h2, List.length_append,
    List.length_singleton]

/-- C12: for every ChangePubKey request, whatever the lengths of its two coordinates, and
every options value, the `PubKeyX` and `PubKeyY` of the converted record have exactly 32
bytes; a coordinate of exactly 32 bytes is reproduced byte for byte, an empty one gives 32
zero bytes and one longer than 32 bytes gives its first 32 bytes.  With the byte buffers
as heap objects: whatever buffers the caller's two slices refer to, the record's two
slices refer to buffers that did not exist before the call, different from each other and
from the caller's; they hold the record's coordinates; no buffer of the caller is
changed; and a later write to any buffer that existed before the call does not change
what the record's slices hold. -/
theorem ConvertChangePubKeyTxInfo_coordinates (tx : ChangePubKeyReq) (ops : TransactOpts) :
    ∃ r, ConvertChangePubKeyTxInfo (some tx) (some ops) = .ok r ∧
      r.PubKeyX.length = 32 ∧ r.PubKeyY.length = 32 ∧
      (tx.PubKeyX.length = 32 → r.PubKeyX = tx.PubKeyX) ∧
      (tx.PubKeyY.length = 32 → r.PubKeyY = tx.PubKeyY) ∧
      (tx.PubKeyX = [] → r.PubKeyX = List.replicate 32 0) ∧
      (tx.PubKeyY = [] → r.PubKeyY = List.replicate 32 0) ∧
      (32 ≤ tx.PubKeyX.length → r.PubKeyX = tx.PubKeyX.take 32) ∧
      (32 ≤ tx.PubKeyY.length → r.PubKeyY = tx.PubKeyY.take 32) ∧
      (∀ (h : Buffers) (sx sy : Slice),
        (∀ a, sx = some a → a < h.bufs.length) → (∀ a, sy = some a → a < h.bufs.length) →
        h.read sx = tx.PubKeyX → h.read sy = tx.PubKeyY →
        ∃ h2 px py, ConvertChangePubKeyTxInfoBuffers h sx sy = (h2, px, py) ∧
          h.bufs.length ≤ px ∧ h.bufs.length ≤ py ∧ px ≠ py ∧
          sx ≠ some px ∧ sx ≠ some py ∧ sy ≠ some px ∧ sy ≠ some py ∧
          h2.read (some px) = r.PubKeyX ∧ h2.read (some py) = r.PubKeyY ∧
          (∀ a, a < h.bufs.length → h2.read (some a) = h.read (some a)) ∧
          (∀ a b, a < h.bufs.length →
            (h2.write a b).read (some px) = r.PubKeyX ∧
            (h2.write a b).read (some py) = r.PubKeyY)) := by
  refine ⟨_, rfl, copyInto_length 32 _, copyInto_length 32 _,
    copyInto_of_length_eq 32 _, copyInto_of_length_eq 32 _, ?_, ?_, ?_, ?_, ?_⟩
  · intro h
    simp [h, copyInto]
  · intro h
    simp [h, copyInto]
  · intro h
    simp [copyInto, Nat.sub_eq_zero_of_le h]
  · intro h
    simp [copyInto, Nat.sub_eq_zero_of_le h]
  · intro h sx sy hx hy hrx hry
    refine ⟨_, _, _, ConvertChangePubKeyTxInfoBuffers_eq h sx sy hx hy, le_refl _,
      Nat.le_succ _, Nat.ne_of_lt (Nat.lt_succ_self _), ?_, ?_, ?_, ?_, ?_, ?_, ?_, ?_⟩
    · intro he
      exact absurd (hx _ he) (Nat.lt_irrefl _)
    · intro he
      exact absurd (hx _ he) (by omega)
    · intro he
      exact absurd (hy _ he) (Nat.lt_irrefl _)
    · intro he
      exact absurd (hy _ he) (by omega)
    · rw [hrx]
      simp [Buffers.read, List.getD_eq_getElem?_getD,
        List.getElem?_append_right (le_refl h.bufs.length)]
    · rw [hrx, hry]
      simp [Buffers.read, List.getD_eq_getElem?_getD,
        List.getElem?_append_right (Nat.le_succ h.bufs.length)]
    · intro a ha
      simp [Buffers.read, List.getD_eq_getElem?_getD, List.getElem?_append_left ha]
    · intro a b ha
      rw [hrx, hry]
      have hlen : (h.bufs.set a b).length = h.bufs.length := List.length_set _ _ _
      constructor
      · simp only [Buffers.write, Buffers.read, List.set_append_left _ _ ha,
          List.getD_eq_getElem?_getD]
        rw [List.getElem?_append_right (by rw [hlen])]
        simp [hlen]
      · simp only [Buffers.write, Buffers.read, List.set_append_left _ _ ha,
          List.getD_eq_getElem?_getD]
        rw [List.getElem?_append_right (by rw [hlen]; exact Nat.le_succ _)]
        simp [hlen]

/-- C12, at a request whose X coordinate has 32 bytes and whose Y coordinate has 2, held
in the caller's buffers 0 and 1: the record's slices are the new buffers 2 and 3. -/
theorem ConvertChangePubKeyTxInfo_coordinates_witness :
    ∃ r, ConvertChangePubKeyTxInfo
        (some { L1Address := "0xA", PubKeyX := List.replicate 32 7, PubKeyY := [1, 2] })
        (some demoOps) = .ok r ∧
      r.PubKeyX = List.replicate 32 7 ∧ r.PubKeyY.length = 32 ∧
      ∃ h2 px py, ConvertChangePubKeyTxInfoBuffers demoBuffers (some 0) (some 1) =
          (h2, px, py) ∧
        2 ≤ px ∧ 2 ≤ py ∧ px ≠ py ∧ h2.read (some px) = r.PubKeyX ∧
        h2.read (some py) = r.PubKeyY ∧ h2.read (some 0) = List.replicate 32 7 := by
  obtain ⟨r, hr, -, hy, hx, -, -, -, -, -, hbuf⟩ := ConvertChangePubKeyTxInfo_coordinates
    { L1Address := "0xA", PubKeyX := List.replicate 32 7, PubKeyY := [1, 2] } demoOps
  obtain ⟨h2, px, py, he, h1, h3, h4, -, -, -, -, h5, h6, h7, -⟩ :=
    hbuf demoBuffers (some 0) (some 1) (by simp [demoBuffers]) (by simp [demoBuffers])
      rfl rfl
  exact ⟨r, hr, hx rfl, hy, h2, px, py, he, h1, h3, h4, h5, h6, h7 0 (by decide)⟩

/-- A run that loads the two objects, computes the record with `f` and stores it in a new
object is deterministic, leaves its inputs as they were and returns what `f` computes. -/
theorem load_compute_alloc {Req Rec : Type} (run : HeapRun Req Rec)
    (f : Option Req → Option TransactOpts → Except Panic Rec)
    (hrun : ∀ m tx ops, run m tx ops =
      match f (m.loadReq tx) (m.loadOpts ops) with
      | .error p => .error p
      | .ok r => .ok (m.alloc r)) :
    Deterministic run ∧ LeavesInputs run ∧ Computes run f := by
  have hcomp : Computes run f := by
    intro m tx ops
    rw [hrun]
    cases f (m.loadReq tx) (m.loadOpts ops) with
    | error p => rfl
    | ok r => simp [returned, Heap.alloc]
  refine ⟨?_, ?_, hcomp⟩
  · intro m1 m2 tx1 tx2 ops1 ops2 htx hops
    rw [hcomp m1 tx1 ops1, hcomp m2 tx2 ops2, htx, hops]
  · intro m m2 tx ops a hok
    rw [hrun] at hok
    cases hf : f (m.loadReq tx) (m.loadOpts ops) with
    | error p => simp [hf] at hok
    | ok r =>
      simp only [hf, Heap.alloc, Except.ok.injEq, Prod.mk.injEq] at hok
      obtain ⟨hm, ha⟩ := hok
      subst hm
      subst ha
      refine ⟨rfl, rfl, ?_, rfl, by simp⟩
      intro i hi
      simp [List.getElem?_append_left hi]

/-- C13: each of the ten conversions, run on a heap that holds the objects its pointers
lead to, is deterministic and modifies nothing.  In any two heaps, on pointers that lead
to equal requests and equal options, the two runs panic alike or return records equal in
every field (`Deterministic`); a run leaves every request object, every options object
and every earlier record as it was and returns a new object (`LeavesInputs`); and the
record returned is the one the conversion computes from the two objects (`Computes`). -/
theorem Convert_deterministic :
    (Deterministic ConvertTransferTxOnHeap ∧ LeavesInputs ConvertTransferTxOnHeap ∧
      Computes ConvertTransferTxOnHeap ConvertTransferTx) ∧
    (Deterministic ConvertWithdrawTxOnHeap ∧ LeavesInputs ConvertWithdrawTxOnHeap ∧
      Computes ConvertWithdrawTxOnHeap ConvertWithdrawTx) ∧
    (Deterministic ConvertWithdrawNftTxInfoOnHeap ∧
      LeavesInputs ConvertWithdrawNftTxInfoOnHeap ∧
      Computes ConvertWithdrawNftTxInfoOnHeap ConvertWithdrawNftTxInfo) ∧
    (Deterministic ConvertTransferNftTxInfoOnHeap ∧
      LeavesInputs ConvertTransferNftTxInfoOnHeap ∧
      Computes ConvertTransferNftTxInfoOnHeap ConvertTransferNftTxInfo) ∧
    (Deterministic ConvertMintNftTxInfoOnHeap ∧ LeavesInputs ConvertMintNftTxInfoOnHeap ∧
      Computes ConvertMintNftTxInfoOnHeap ConvertMintNftTxInfo) ∧
    (Deterministic ConvertCreateCollectionTxInfoOnHeap ∧
      LeavesInputs ConvertCreateCollectionTxInfoOnHeap ∧
      Computes ConvertCreateCollectionTxInfoOnHeap ConvertCreateCollectionTxInfo) ∧
    (Deterministic ConvertCancelOfferTxInfoOnHeap ∧
      LeavesInputs ConvertCancelOfferTxInfoOnHeap ∧
      Computes ConvertCancelOfferTxInfoOnHeap ConvertCancelOfferTxInfo) ∧
    (Deterministic ConvertChangePubKeyTxInfoOnHeap ∧
      LeavesInputs ConvertChangePubKeyTxInfoOnHeap ∧
      Computes ConvertChangePubKeyTxInfoOnHeap ConvertChangePubKeyTxInfo) ∧
    (Deterministic ConvertOfferTxInfoOnHeap ∧ LeavesInputs ConvertOfferTxInfoOnHeap ∧
      Computes ConvertOfferTxInfoOnHeap (fun tx _ => ConvertOfferTxInfo tx)) ∧
    (Deterministic ConvertAtomicMatchTxInfoOnHeap ∧
      LeavesInputs ConvertAtomicMatchTxInfoOnHeap ∧
      Computes ConvertAtomicMatchTxInfoOnHeap ConvertAtomicMatchTxInfo) :=
  ⟨load_compute_alloc _ _ (fun m tx ops => by
      unfold ConvertTransferTxOnHeap
      split <;> simp_all),
    load_compute_alloc _ _ (fun m tx ops => by
      unfold ConvertWithdrawTxOnHeap
      split <;> simp_all),
    load_compute_alloc _ _ (fun m tx ops => by
      unfold ConvertWithdrawNftTxInfoOnHeap
      split <;> simp_all),
    load_compute_alloc _ _ (fun m tx ops => by
      unfold ConvertTransferNftTxInfoOnHeap
      split <;> simp_all),
    load_compute_alloc _ _ (fun m tx ops => by
      unfold ConvertMintNftTxInfoOnHeap
      split <;> simp_all),
    load_compute_alloc _ _ (fun m tx ops => by
      unfold ConvertCreateCollectionTxInfoOnHeap
      split <;> simp_all),
    load_compute_alloc _ _ (fun m tx ops => by
      unfold ConvertCancelOfferTxInfoOnHeap
      split <;> simp_all),
    load_compute_alloc _ _ (fun m tx ops => by
      unfold ConvertChangePubKeyTxInfoOnHeap
      split <;> simp_all),
    load_compute_alloc _ _ (fun m tx ops => by
      unfold ConvertOfferTxInfoOnHeap
      split <;> simp_all),
    load_compute_alloc _ _ (fun m tx ops => by
      unfold ConvertAtomicMatchTxInfoOnHeap
      split <;> simp_all)⟩

/-- C13, on two different heaps that hold the Transfer request and options of the example
scenario at different addresses: the two runs return equal records, the second at the new
address 1, and the second run leaves the requests, the options and the earlier record of
its heap as they were. -/
theorem Convert_deterministic_witness :
    returned (ConvertTransferTxOnHeap demoHeap1 (some 0) (some 0)) =
        returned (ConvertTransferTxOnHeap demoHeap2 (some 1) (some 2)) ∧
      ∃ m2 r, ConvertTransferTxOnHeap demoHeap2 (some 1) (some 2) = .ok (m2, 1) ∧
        m2.reqs = demoHeap2.reqs ∧ m2.opts = demoHeap2.opts ∧
        m2.recs = [demoOldRecord, r] ∧
        r.FromAccountIndex = 5 ∧ r.AssetAmount = some 1 ∧ r.Nonce = 3 := by
  refine ⟨Convert_deterministic.1.1 demoHeap1 demoHeap2 (some 0) (some 1) (some 0) (some 2)
    rfl rfl, ?_⟩
  obtain ⟨h1, h2, -⟩ := Convert_deterministic.1.2.1 demoHeap2 _ (some 1) (some 2) 1 rfl
  exact ⟨_, _, rfl, h1, h2, rfl, rfl, rfl, rfl⟩

/-- C14 (as stated, refuted): on a non-nil AtomicMatch request whose `BuyOffer` is nil,
with non-nil options, `ConvertAtomicMatchTxInfo` panics on the nil pointer. -/
theorem ConvertAtomicMatchTxInfo_nil_offer_panics :
    ConvertAtomicMatchTxInfo (some { BuyOffer := none, SellOffer := some demoSellOffer })
        (some demoOps) = .error .nilDereference :=
  rfl

/-- C14 (amended): every conversion returns a record on every non-nil request and non-nil
options; for `ConvertAtomicMatchTxInfo` this holds exactly when both offers of the request
are non-nil, and a request with a nil `BuyOffer` or `SellOffer` makes it panic. -/
theorem Convert_total_on_non_nil :
    (∀ tx ops, ∃ r, ConvertTransferTx (some tx) (some ops) = .ok r) ∧
    (∀ tx ops, ∃ r, ConvertWithdrawTx (some tx) (some ops) = .ok r) ∧
    (∀ tx ops, ∃ r, ConvertWithdrawNftTxInfo (some tx) (some ops) = .ok r) ∧
    (∀ tx ops, ∃ r, ConvertTransferNftTxInfo (some tx) (some ops) = .ok r) ∧
    (∀ tx ops, ∃ r, ConvertMintNftTxInfo (some tx) (some ops) = .ok r) ∧
    (∀ tx ops, ∃ r, ConvertCreateCollectionTxInfo (some tx) (some ops) = .ok r) ∧
    (∀ tx ops, ∃ r, ConvertCancelOfferTxInfo (some tx) (some ops) = .ok r) ∧
    (∀ tx ops, ∃ r, ConvertChangePubKeyTxInfo (some tx) (some ops) = .ok r) ∧
    (∀ tx, ∃ r, ConvertOfferTxInfo (some tx) = .ok r) ∧
    (∀ (tx : AtomicMatchTxReq) (ops : TransactOpts),
      (∃ r, ConvertAtomicMatchTxInfo (some tx) (some ops) = .ok r) ↔
        (tx.BuyOffer ≠ none ∧ tx.SellOffer ≠ none)) ∧
    (∀ (tx : AtomicMatchTxReq) (ops : TransactOpts),
      (tx.BuyOffer = none ∨ tx.SellOffer = none) →
        ConvertAtomicMatchTxInfo (some tx) (some ops) = .error .nilDereference) := by
  refine ⟨fun _ _ => ⟨_, rfl⟩, fun _ _ => ⟨_, rfl⟩, fun _ _ => ⟨_, rfl⟩,
    fun _ _ => ⟨_, rfl⟩, fun _ _ => ⟨_, rfl⟩, fun _ _ => ⟨_, rfl⟩, fun _ _ => ⟨_, rfl⟩,
    fun _ _ => ⟨_, rfl⟩, fun _ => ⟨_, rfl⟩, ?_, ?_⟩
  · rintro ⟨_ | buy, _ | sell⟩ ops <;> simp [ConvertAtomicMatchTxInfo]
  · rintro ⟨_ | buy, _ | sell⟩ ops h <;> simp [ConvertAtomicMatchTxInfo] at h ⊢

/-- C14 (amended), at the demo request with both offers and at one without sell offer. -/
theorem Convert_total_on_non_nil_witness :
    (∃ r, ConvertAtomicMatchTxInfo
        (some { BuyOffer := some demoBuyOffer, SellOffer := some demoSellOffer })
        (some demoOps) = .ok r) ∧
      ConvertAtomicMatchTxInfo (some { BuyOffer := some demoBuyOffer, SellOffer := none })
        (some demoOps) = .error .nilDereference :=
  ⟨(Convert_total_on_non_nil.2.2.2.2.2.2.2.2.2.1 _ demoOps).2 ⟨by simp, by simp⟩,
    Convert_total_on_non_nil.2.2.2.2.2.2.2.2.2.2 _ demoOps (Or.inr rfl)⟩

/-- C16: for every AtomicMatch request with non-nil offers and every options value, the
sell offer of the converted record has `RoyaltyRate = 0`, `ProtocolRate = 0` and a nil
`ProtocolAmount` whatever the request's sell offer holds there, its other twelve fields
are the request's, and the buy offer has all fifteen fields of the request's buy offer. -/
theorem ConvertAtomicMatchTxInfo_sell_omits_rates (buy sell : OfferTxInfo)
    (ops : TransactOpts) :
    ∃ r b s, ConvertAtomicMatchTxInfo (some { BuyOffer := some buy, SellOffer := some sell })
        (some ops) = .ok r ∧
      r.BuyOffer = some b ∧ r.SellOffer = some s ∧
      s.RoyaltyRate = 0 ∧ s.ProtocolRate = 0 ∧ s.ProtocolAmount = none ∧
      s.Type_ = sell.Type_ ∧ s.OfferId = sell.OfferId ∧
      s.AccountIndex = sell.AccountIndex ∧ s.NftIndex = sell.NftIndex ∧
      s.AssetId = sell.AssetId ∧ s.AssetAmount = sell.AssetAmount ∧
      s.ListedAt = sell.ListedAt ∧ s.ExpiredAt = sell.ExpiredAt ∧
      s.ChanelAccountIndex = sell.ChanelAccountIndex ∧ s.ChanelRate = sell.ChanelRate ∧
      s.Sig = sell.Sig ∧ s.L1Sig = sell.L1Sig ∧
      b.Type_ = buy.Type_ ∧ b.OfferId = buy.OfferId ∧
      b.AccountIndex = buy.AccountIndex ∧ b.NftIndex = buy.NftIndex ∧
      b.AssetId = buy.AssetId ∧ b.AssetAmount = buy.AssetAmount ∧
      b.ListedAt = buy.ListedAt ∧ b.ExpiredAt = buy.ExpiredAt ∧
      b.RoyaltyRate = buy.RoyaltyRate ∧ b.ChanelAccountIndex = buy.ChanelAccountIndex ∧
      b.ChanelRate = buy.ChanelRate ∧ b.ProtocolRate = buy.ProtocolRate ∧
      b.ProtocolAmount = buy.ProtocolAmount ∧ b.Sig = buy.Sig ∧ b.L1Sig = buy.L1Sig := by
  refine ⟨_, _, _, rfl, rfl, rfl, ?_⟩
  simp

/-- C19: `ConvertWithdrawNftTxInfo` takes the actor account, the NFT index and the
destination from the request; its result does not change when only `FromAccountIndex`
of the options changes.  In each of the other eight two-argument conversions the actor
index of the record is `ops.FromAccountIndex`. -/
theorem ConvertWithdrawNftTxInfo_actor_from_request (ops : TransactOpts) :
    (∀ tx, ∃ r, ConvertWithdrawNftTxInfo (some tx) (some ops) = .ok r ∧
      r.AccountIndex = tx.AccountIndex ∧ r.NftIndex = tx.NftIndex ∧
      r.ToAddress = tx.ToAddress) ∧
    (∀ tx (n : Int), ConvertWithdrawNftTxInfo (some tx)
        (some { ops with FromAccountIndex := n }) =
      ConvertWithdrawNftTxInfo (some tx) (some ops)) ∧
    (∀ tx, ∃ r, ConvertTransferNftTxInfo (some tx) (some ops) = .ok r ∧
      r.FromAccountIndex = ops.FromAccountIndex) ∧
    (∀ tx, ∃ r, ConvertChangePubKeyTxInfo (some tx) (some ops) = .ok r ∧
      r.AccountIndex = ops.FromAccountIndex) ∧
    (∀ tx, ∃ r, ConvertMintNftTxInfo (some tx) (some ops) = .ok r ∧
      r.CreatorAccountIndex = ops.FromAccountIndex) ∧
    (∀ tx, ∃ r, ConvertTransferTx (some tx) (some ops) = .ok r ∧
      r.FromAccountIndex = ops.FromAccountIndex) ∧
    (∀ tx, ∃ r, ConvertWithdrawTx (some tx) (some ops) = .ok r ∧
      r.FromAccountIndex = ops.FromAccountIndex) ∧
    (∀ tx, ∃ r, ConvertCreateCollectionTxInfo (some tx) (some ops) = .ok r ∧
      r.AccountIndex = ops.FromAccountIndex) ∧
    (∀ buy sell, ∃ r, ConvertAtomicMatchTxInfo
        (some { BuyOffer := some buy, SellOffer := some sell }) (some ops) = .ok r ∧
      r.AccountIndex = ops.FromAccountIndex) ∧
    (∀ tx, ∃ r, ConvertCancelOfferTxInfo (some tx) (some ops) = .ok r ∧
      r.AccountIndex = ops.FromAccountIndex) :=
  ⟨fun _ => ⟨_, rfl, rfl, rfl, rfl⟩, fun _ _ => rfl, fun _ => ⟨_, rfl, rfl⟩,
    fun _ => ⟨_, rfl, rfl⟩, fun _ => ⟨_, rfl, rfl⟩, fun _ => ⟨_, rfl, rfl⟩,
    fun _ => ⟨_, rfl, rfl⟩, fun _ => ⟨_, rfl, rfl⟩, fun _ _ => ⟨_, rfl, rfl⟩,
    fun _ => ⟨_, rfl, rfl⟩⟩

/-- Appending `k` zero bytes multiplies the big-endian value by `256 ^ k`. -/
theorem bigIntSetBytes_append_zeros (l : Bytes) (k : Nat) :
    bigIntSetBytes (l ++ List.replicate k 0) = bigIntSetBytes l * 256 ^ k := by
  unfold bigIntSetBytes
  rw [List.foldl_append]
  generalize List.foldl (fun acc b => acc * 256 + b) 0 l = a
  induction k generalizing a with
  | zero => simp
  | succ k ih =>
    rw [List.replicate_succ, List.foldl_cons, ih]
    ring

/-- A source of at most `n` bytes is copied whole and followed by zero bytes. -/
theorem copyInto_of_length_le (n : Nat) (src : Bytes) (h : src.length ≤ n) :
    copyInto n src = src ++ List.replicate (n - src.length) 0 := by
  simp [copyInto, List.take_of_length_le h]

/-- C17 (as stated, refuted): the X coordinate `01`, the integer 1, is not converted to
the 32-byte big-endian encoding of 1: the result is `01` followed by 31 zero bytes, whose
value is not 1. -/
theorem ConvertChangePubKeyTxInfo_not_left_padded :
    ∃ r, ConvertChangePubKeyTxInfo (some demoShortKeyReq) (some demoOps) = .ok r ∧
      r.PubKeyX = 1 :: List.replicate 31 0 ∧
      r.PubKeyX ≠ bigEndian 32 (bigIntSetBytes demoShortKeyReq.PubKeyX) ∧
      bigIntSetBytes r.PubKeyX ≠ bigIntSetBytes demoShortKeyReq.PubKeyX :=
  ⟨_, rfl, rfl, by decide, by decide⟩

/-- C17 (amended): a coordinate of at most 32 bytes is converted to that byte string
followed by zero bytes up to 32 bytes, so that its big-endian value is the input's
multiplied by `256 ^ (32 - length)`; a coordinate of exactly 32 bytes is returned
unchanged, with the same value. -/
theorem ConvertChangePubKeyTxInfo_pads_right (tx : ChangePubKeyReq) (ops : TransactOpts) :
    ∃ r, ConvertChangePubKeyTxInfo (some tx) (some ops) = .ok r ∧
      (tx.PubKeyX.length ≤ 32 →
        r.PubKeyX = tx.PubKeyX ++ List.replicate (32 - tx.PubKeyX.length) 0 ∧
        bigIntSetBytes r.PubKeyX =
          bigIntSetBytes tx.PubKeyX * 256 ^ (32 - tx.PubKeyX.length)) ∧
      (tx.PubKeyY.length ≤ 32 →
        r.PubKeyY = tx.PubKeyY ++ List.replicate (32 - tx.PubKeyY.length) 0 ∧
        bigIntSetBytes r.PubKeyY =
          bigIntSetBytes tx.PubKeyY * 256 ^ (32 - tx.PubKeyY.length)) ∧
      (tx.PubKeyX.length = 32 →
        r.PubKeyX = tx.PubKeyX ∧ bigIntSetBytes r.PubKeyX = bigIntSetBytes tx.PubKeyX) ∧
      (tx.PubKeyY.length = 32 →
        r.PubKeyY = tx.PubKeyY ∧ bigIntSetBytes r.PubKeyY = bigIntSetBytes tx.PubKeyY) := by
  refine ⟨_, rfl, ?_, ?_, ?_, ?_⟩
  · intro h
    have hc := copyInto_of_length_le 32 tx.PubKeyX h
    exact ⟨hc, by simp only [hc, bigIntSetBytes_append_zeros]⟩
  · intro h
    have hc := copyInto_of_length_le 32 tx.PubKeyY h
    exact ⟨hc, by simp only [hc, bigIntSetBytes_append_zeros]⟩
  · intro h
    have hc := copyInto_of_length_eq 32 tx.PubKeyX h
    exact ⟨hc, by simp only [hc]⟩
  · intro h
    have hc := copyInto_of_length_eq 32 tx.PubKeyY h
    exact ⟨hc, by simp only [hc]⟩

/-- C17 (amended), at the request whose X coordinate is the one byte `01`: the result
is `01` followed by 31 zero bytes, of value `256 ^ 31`. -/
theorem ConvertChangePubKeyTxInfo_pads_right_witness :
    ∃ r, ConvertChangePubKeyTxInfo (some demoShortKeyReq) (some demoOps) = .ok r ∧
      r.PubKeyX = [1] ++ List.replicate 31 0 ∧
      bigIntSetBytes r.PubKeyX = 1 * 256 ^ 31 := by
  obtain ⟨r, hr, hx, -⟩ := ConvertChangePubKeyTxInfo_pads_right demoShortKeyReq demoOps
  exact ⟨r, hr, hx (by decide)⟩

/-- C18: in each of the seven `Verify*TxSig` entry points the record is hashed before the
key string is decoded.  When hashing fails the call returns the hash error after the calls
`NewMiMC` and `Hash` only: `parsePk` is not called and the outcome is the same for every
key string.  When hashing succeeds and `parsePk` fails the call returns the error of
`parsePk` and the signature check is not invoked. -/
theorem Verify_hash_before_key {H PK : Type} (T : TxTypes H) (M : MiMC H) (E : Eddsa H PK)
    (pubKey : String) (v : VerifyKind) (tx : v.kind.Info) :
    ∃ out, Verify T M E pubKey v (some tx) = .ok out ∧
      (∀ e, (T.Hash v.kind tx M.NewMiMC).1 = .error e →
        out = ⟨some (.lib e), [.NewMiMC, .Hash M.NewMiMC]⟩ ∧
        (∀ s, Call.parsePk s ∉ out.calls) ∧
        (∀ otherKey, Verify T M E otherKey v (some tx) = .ok out)) ∧
      (∀ msg e, (T.Hash v.kind tx M.NewMiMC).1 = .ok msg → parsePk E pubKey = .error e →
        out = ⟨some e, [.NewMiMC, .Hash M.NewMiMC, .parsePk pubKey]⟩ ∧
        (∀ sig m h, Call.Verify sig m h ∉ out.calls)) := by
  refine ⟨_, Verify_some T M E pubKey v tx, ?_, ?_⟩
  · intro e he
    refine ⟨?_, ?_, ?_⟩
    · simp [hashAndVerify, he]
    · simp [hashAndVerify, he]
    · intro otherKey
      rw [Verify_some]
      simp [hashAndVerify, he]
  · intro msg e hm hp
    simp [hashAndVerify, hm, hp]

/-- C18, on the demo buy offer: with a failing `Hash` the malformed key `0g` is not
reported, and with the toy `Hash` it is. -/
theorem Verify_hash_before_key_witness :
    Verify overflowTxTypes demoMiMC demoEddsa "0g" .Offer (some demoBuyOffer) =
        .ok ⟨some (.lib ⟨"amount overflow"⟩), [.NewMiMC, .Hash []]⟩ ∧
      Verify demoTxTypes demoMiMC demoEddsa "0g" .Offer (some demoBuyOffer) =
        .ok ⟨some (.hexInvalidByte 103), [.NewMiMC, .Hash [], .parsePk "0g"]⟩ := by
  obtain ⟨out1, h1, hhash, -⟩ :=
    Verify_hash_before_key overflowTxTypes demoMiMC demoEddsa "0g" .Offer demoBuyOffer
  obtain ⟨out2, h2, -, hkey⟩ :=
    Verify_hash_before_key demoTxTypes demoMiMC demoEddsa "0g" .Offer demoBuyOffer
  rw [h1, h2, (hhash ⟨"amount overflow"⟩ rfl).1, (hkey [1, 16] (.hexInvalidByte 103) rfl rfl).1]
  exact ⟨rfl, rfl⟩

/-- The calls of the shared signing statements: whenever `Sign` is called, the calls up to
it are `Validate`, `NewMiMC`, `Hash` on the new instance, `Reset` of the instance `Hash`
left behind, and `Sign` on the reset instance. -/
theorem signAndMarshal_sign_call {H : Type} (T : TxTypes H) (M : MiMC H) (key : Signer H)
    (k : TxKind) (r : k.Info) (msg : Bytes) (h : H)
    (hmem : Call.Sign msg h ∈ (signAndMarshal T M key k r).calls) :
    h = M.Reset (T.Hash k r M.NewMiMC).2 ∧
      (signAndMarshal T M key k r).calls.take 5 =
        [.Validate, .NewMiMC, .Hash M.NewMiMC, .Reset (T.Hash k r M.NewMiMC).2,
          .Sign msg (M.Reset (T.Hash k r M.NewMiMC).2)] := by
  cases hv : T.Validate k r with
  | some e0 => simp [signAndMarshal, hv] at hmem
  | none =>
    rcases hh : T.Hash k r M.NewMiMC with ⟨e1 | m, h1⟩
    · simp [signAndMarshal, hv, hh] at hmem
    · cases hs : key.Sign m (M.Reset h1) with
      | error e2 =>
        simp [signAndMarshal, hv, hh, hs] at hmem
        simp [signAndMarshal, hv, hh, hs, hmem]
      | ok sig =>
        cases hm : T.Marshal k (k.setSig r sig) with
        | error e3 =>
          simp [signAndMarshal, hv, hh, hs, hm] at hmem
          simp [signAndMarshal, hv, hh, hs, hm, hmem]
        | ok s =>
          simp [signAndMarshal, hv, hh, hs, hm] at hmem
          simp [signAndMarshal, hv, hh, hs, hm, hmem]

/-- A `Construct*` entry point whose conversion panics panics. -/
theorem Construct_panics {H : Type} (T : TxTypes H) (M : MiMC H) (key : Signer H)
    (k : TxKind) (tx : Option k.Req) (ops : Option TransactOpts) (p : Panic)
    (h : Convert k tx ops = .error p) :
    Construct T M key k tx ops = .error p := by
  cases k <;>
    simp only [Construct, Convert, ConstructWithdrawTxInfo, ConstructTransferTx,
      ConstructCreateCollectionTx, ConstructTransferNftTx, ConstructWithdrawNftTx,
      ConstructOfferTx, ConstructMintNftTx, ConstructAtomicMatchTx,
      ConstructCancelOfferTx] at h ⊢ <;>
    rw [h]

/-- The shared signing statements use the signer only on the instance `Reset` returned:
two signers that agree on every such instance give the same outcome. -/
theorem signAndMarshal_signer_on_reset {H : Type} (T : TxTypes H) (M : MiMC H)
    (key key2 : Signer H) (k : TxKind) (r : k.Info)
    (hagree : ∀ m h, key2.Sign m (M.Reset h) = key.Sign m (M.Reset h)) :
    signAndMarshal T M key2 k r = signAndMarshal T M key k r := by
  simp only [signAndMarshal, hagree]

/-- The outcome of the shared signing statements once `Validate` and `Hash` have
succeeded: it is the one `key.Sign` gives on the commitment and the reset instance. -/
theorem signAndMarshal_after_hash {H : Type} (T : TxTypes H) (M : MiMC H) (key : Signer H)
    (k : TxKind) (r : k.Info) (msg : Bytes) (h1 : H)
    (hv : T.Validate k r = none) (hh : T.Hash k r M.NewMiMC = (.ok msg, h1)) :
    (∀ e, key.Sign msg (M.Reset h1) = .error e →
      (signAndMarshal T M key k r).err = some (.lib e) ∧
        (signAndMarshal T M key k r).txInfo = "") ∧
    (∀ sig s, key.Sign msg (M.Reset h1) = .ok sig → T.Marshal k (k.setSig r sig) = .ok s →
      (signAndMarshal T M key k r).err = none ∧ (signAndMarshal T M key k r).txInfo = s) ∧
    (∀ sig e, key.Sign msg (M.Reset h1) = .ok sig →
      T.Marshal k (k.setSig r sig) = .error e →
      (signAndMarshal T M key k r).err = some (.lib e) ∧
        (signAndMarshal T M key k r).txInfo = "") := by
  refine ⟨?_, ?_, ?_⟩
  · intro e hs
    simp [signAndMarshal, hv, hh, hs]
  · intro sig s hs hm
    simp [signAndMarshal, hv, hh, hs, hm]
  · intro sig e hs hm
    simp [signAndMarshal, hv, hh, hs, hm]

/-- The shared verification statements use `pk.Verify` only on a new instance: two
packages with the same `SetBytes` whose `Verify` agree on a new instance give the same
outcome. -/
theorem hashAndVerify_verify_on_new {H PK : Type} (T : TxTypes H) (M : MiMC H)
    (E E2 : Eddsa H PK) (k : TxKind) (pubKey : String) (hashed : k.Info) (sig : Bytes)
    (hset : E2.SetBytes = E.SetBytes)
    (hagree : ∀ pk s m, E2.Verify pk s m M.NewMiMC = E.Verify pk s m M.NewMiMC) :
    hashAndVerify T M E2 k pubKey hashed sig = hashAndVerify T M E k pubKey hashed sig := by
  have hpk : parsePk E2 pubKey = parsePk E pubKey := by
    simp only [parsePk, hset]
  simp only [hashAndVerify, hpk, hagree]

/-- C15: with the hash instance as explicit state.  In each of the nine `Construct*`
entry points, once `Validate` and `Hash` (on a new instance) have succeeded, the outcome
is the one `key.Sign` gives on the commitment and the instance `Reset` returned for the
instance `Hash` left behind: a signing error is returned, a signature is serialized.  The
signer is used on no other instance: two signers that agree on reset instances, and, when
`Reset` gives the state of a new instance, two signers that agree on a new instance, give
the same outcome, whatever they do on an instance that holds absorbed data.  The calls are
`Validate`, `NewMiMC`, `Hash`, `Reset`, `Sign` in this order.  In each of the seven
`Verify*TxSig` entry points the record is hashed with a new instance and `pk.Verify` is
handed a second new instance: the outcome does not depend on the state in which `Hash`
leaves its instance, nor on what `pk.Verify` does on any instance but a new one. -/
theorem hash_instance_fresh_at_sign_and_verify {H PK : Type} (T : TxTypes H) (M : MiMC H)
    (E : Eddsa H PK) (key : Signer H) :
    (∀ (k : TxKind) (tx : Option k.Req) (ops : Option TransactOpts) (r : k.Info)
        (msg : Bytes) (h1 : H),
      Convert k tx ops = .ok r → T.Validate k r = none →
      T.Hash k r M.NewMiMC = (.ok msg, h1) →
        ∃ out, Construct T M key k tx ops = .ok out ∧
          (∀ e, key.Sign msg (M.Reset h1) = .error e →
            out.err = some (.lib e) ∧ out.txInfo = "") ∧
          (∀ sig s, key.Sign msg (M.Reset h1) = .ok sig →
            T.Marshal k (k.setSig r sig) = .ok s → out.err = none ∧ out.txInfo = s) ∧
          (∀ sig e, key.Sign msg (M.Reset h1) = .ok sig →
            T.Marshal k (k.setSig r sig) = .error e →
            out.err = some (.lib e) ∧ out.txInfo = "") ∧
          ((∀ x, M.Reset x = M.NewMiMC) → M.Reset h1 = M.NewMiMC)) ∧
    (∀ (key2 : Signer H), (∀ m h, key2.Sign m (M.Reset h) = key.Sign m (M.Reset h)) →
      ∀ (k : TxKind) (tx : Option k.Req) (ops : Option TransactOpts),
        Construct T M key2 k tx ops = Construct T M key k tx ops) ∧
    ((∀ x, M.Reset x = M.NewMiMC) →
      ∀ (key2 : Signer H), (∀ m, key2.Sign m M.NewMiMC = key.Sign m M.NewMiMC) →
        ∀ (k : TxKind) (tx : Option k.Req) (ops : Option TransactOpts),
          Construct T M key2 k tx ops = Construct T M key k tx ops) ∧
    (∀ (k : TxKind) (tx : Option k.Req) (ops : Option TransactOpts) (out : Constructed H)
        (msg : Bytes) (h : H),
      Construct T M key k tx ops = .ok out → Call.Sign msg h ∈ out.calls →
        ∃ h1, out.calls.take 5 =
            [.Validate, .NewMiMC, .Hash M.NewMiMC, .Reset h1, .Sign msg (M.Reset h1)] ∧
          h = M.Reset h1 ∧ ((∀ x, M.Reset x = M.NewMiMC) → h = M.NewMiMC)) ∧
    (∀ (v : VerifyKind) (pubKey : String) (tx : v.kind.Info) (out : Verified H),
      Verify T M E pubKey v (some tx) = .ok out →
        out.calls.take 2 = [.NewMiMC, .Hash M.NewMiMC] ∧
        (∀ h, Call.Hash h ∈ out.calls → h = M.NewMiMC) ∧
        (∀ sig msg h, Call.Verify sig msg h ∈ out.calls →
          h = M.NewMiMC ∧
          out.calls =
            [.NewMiMC, .Hash M.NewMiMC, .parsePk pubKey, .NewMiMC,
              .Verify sig msg M.NewMiMC])) ∧
    (∀ (T2 : TxTypes H) (v : VerifyKind) (pubKey : String) (tx : v.kind.Info),
      (T2.Hash v.kind tx M.NewMiMC).1 = (T.Hash v.kind tx M.NewMiMC).1 →
        Verify T2 M E pubKey v (some tx) = Verify T M E pubKey v (some tx)) ∧
    (∀ (E2 : Eddsa H PK), E2.SetBytes = E.SetBytes →
      (∀ pk s m, E2.Verify pk s m M.NewMiMC = E.Verify pk s m M.NewMiMC) →
      ∀ (v : VerifyKind) (pubKey : String) (tx : v.kind.Info),
        Verify T M E2 pubKey v (some tx) = Verify T M E pubKey v (some tx)) := by
  have hsigner : ∀ (key2 : Signer H),
      (∀ m h, key2.Sign m (M.Reset h) = key.Sign m (M.Reset h)) →
      ∀ (k : TxKind) (tx : Option k.Req) (ops : Option TransactOpts),
        Construct T M key2 k tx ops = Construct T M key k tx ops := by
    intro key2 hagree k tx ops
    cases hc : Convert k tx ops with
    | error p => rw [Construct_panics T M key2 k tx ops p hc, Construct_panics T M key k tx ops p hc]
    | ok r =>
      rw [Construct_ok T M key2 k tx ops r hc, Construct_ok T M key k tx ops r hc,
        signAndMarshal_signer_on_reset T M key key2 k r hagree]
  refine ⟨?_, hsigner, ?_, ?_, ?_, ?_, ?_⟩
  · intro k tx ops r msg h1 hconv hv hh
    obtain ⟨h1', h2', h3'⟩ := signAndMarshal_after_hash T M key k r msg h1 hv hh
    exact ⟨_, Construct_ok T M key k tx ops r hconv, h1', h2', h3', fun hreset => hreset h1⟩
  · intro hreset key2 hagree
    refine hsigner key2 ?_
    intro m h
    rw [hreset h]
    exact hagree m
  · intro k tx ops out msg h hout hmem
    obtain ⟨r, -, rfl⟩ := Construct_returns T M key k tx ops out hout
    obtain ⟨hh, hcalls⟩ := signAndMarshal_sign_call T M key k r msg h hmem
    refine ⟨_, hcalls, hh, ?_⟩
    intro hreset
    rw [hh, hreset]
  · intro v pubKey tx out hout
    rw [Verify_some] at hout
    have hout2 := Except.ok.inj hout
    subst hout2
    cases hh : (T.Hash v.kind tx M.NewMiMC).1 with
    | error e0 => simp [hashAndVerify, hh]
    | ok m =>
      cases hp : parsePk E pubKey with
      | error e1 => simp [hashAndVerify, hh, hp]
      | ok pk =>
        rcases hv : E.Verify pk (v.kind.Sig tx) m M.NewMiMC with ⟨valid, _ | err⟩
        · cases valid <;> simp [hashAndVerify, hh, hp, hv] <;>
            (intro sig msg h h1 h2 h3; simp [h1, h2, h3])
        · simp [hashAndVerify, hh, hp, hv]
          intro sig msg h h1 h2 h3
          simp [h1, h2, h3]
  · intro T2 v pubKey tx heq
    rw [Verify_some, Verify_some]
    simp only [hashAndVerify, heq]
  · intro E2 hset hagree v pubKey tx
    rw [Verify_some, Verify_some,
      hashAndVerify_verify_on_new T M E E2 v.kind pubKey tx (v.kind.Sig tx) hset hagree]

/-- C15, with the toy instance, whose `Hash` leaves the commitment absorbed in its
instance.  A signer that refuses every instance holding absorbed data signs the Transfer
of the example scenario, with the outcome of the signer that accepts any instance; a
check that refuses such an instance reaches the same verdict on the demo buy offer as the
check that accepts any. -/
theorem hash_instance_fresh_at_sign_and_verify_witness :
    (demoTxTypes.Hash .Transfer
        { FromAccountIndex := 5, ToL1Address := "0xALICE", AssetId := 0,
          AssetAmount := some 1, GasAccountIndex := 1, GasFeeAssetId := 0,
          GasFeeAssetAmount := some 0, Memo := "", CallData := "", CallDataHash := [],
          ExpiredAt := 1000, Nonce := 3, Sig := [] } demoMiMC.NewMiMC).2 = [7] ∧
    Construct demoTxTypes demoMiMC (strictSigner [9]) .Transfer
        (some { To := "0xALICE", AssetId := 0, AssetAmount := some 1 }) (some demoOps) =
      Construct demoTxTypes demoMiMC (demoSigner [9]) .Transfer
        (some { To := "0xALICE", AssetId := 0, AssetAmount := some 1 }) (some demoOps) ∧
    (∃ out, Construct demoTxTypes demoMiMC (strictSigner [9]) .Transfer
        (some { To := "0xALICE", AssetId := 0, AssetAmount := some 1 }) (some demoOps) =
          .ok out ∧ out.err = none ∧ out.txInfo = "signed") ∧
    Verify demoTxTypes demoMiMC strictEddsa pk32 .Offer (some demoBuyOffer) =
      Verify demoTxTypes demoMiMC demoEddsa pk32 .Offer (some demoBuyOffer) := by
  have hthm := hash_instance_fresh_at_sign_and_verify demoTxTypes demoMiMC demoEddsa
    (demoSigner [9])
  refine ⟨rfl, ?_, ?_, ?_⟩
  · exact hthm.2.2.1 (fun _ => rfl) (strictSigner [9]) (fun _ => rfl) .Transfer _ _
  · exact ⟨_, rfl, rfl, rfl⟩
  · exact hthm.2.2.2.2.2.2 strictEddsa rfl (fun _ _ _ => rfl) .Offer pk32 demoBuyOffer

/-- `strings.Split(s, ".")` returns one piece more than there are dots. -/
theorem splitDot_length (l : List Char) : (splitDot l).length = l.count '.' + 1 := by
  induction l with
  | nil => rfl
  | cons c cs ih =>
    by_cases hc : c = '.'
    · subst hc
      simp [splitDot, ih]
    · rcases hs : splitDot cs with _ | ⟨w, ws⟩
      · rw [hs] at ih
        simp at ih
      · rw [hs] at ih
        have hne : (c == '.') = false := by simpa using hc
        simp [splitDot, hc, hs, List.count_cons, hne] at ih ⊢
        exact ih

/-- The big-endian encoding in `len` bytes has `len` bytes. -/
theorem bigEndian_length (len n : Nat) : (bigEndian len n).length = len := by
  induction len generalizing n with
  | zero => rfl
  | succ len ih => simp [bigEndian, ih]

/-- Every byte of a big-endian encoding is below 256. -/
theorem bigEndian_lt (len n : Nat) : ∀ b ∈ bigEndian len n, b < 256 := by
  induction len generalizing n with
  | zero => simp [bigEndian]
  | succ len ih =>
    intro b hb
    simp only [bigEndian, List.mem_append, List.mem_singleton] at hb
    rcases hb with hb | hb
    · exact ih _ b hb
    · subst hb
      exact Nat.mod_lt _ (by norm_num)

/-- The value of a byte string followed by one byte. -/
theorem bigIntSetBytes_concat (l : Bytes) (b : Nat) :
    bigIntSetBytes (l ++ [b]) = bigIntSetBytes l * 256 + b := by
  simp [bigIntSetBytes, List.foldl_append]

/-- Reading back the big-endian encoding in `len` bytes gives the value modulo
`256 ^ len`. -/
theorem bigIntSetBytes_bigEndian (len n : Nat) :
    bigIntSetBytes (bigEndian len n) = n % 256 ^ len := by
  induction len generalizing n with
  | zero => simp [bigEndian, bigIntSetBytes, Nat.mod_one]
  | succ len ih =>
    rw [bigEndian, bigIntSetBytes_concat, ih, pow_succ, Nat.mul_comm (256 ^ len) 256,
      Nat.mod_mul]
    ring

/-- A digit of `hextable` occupies one byte, which `hex.Decode` reads back as the
digit's value. -/
theorem hextable_roundtrip (d : Nat) (hd : d < 16) :
    ∃ c, utf8Bytes (hextable.getD d '0') = [c] ∧ fromHexChar c = some d := by
  interval_cases d <;> exact ⟨_, rfl, rfl⟩

/-- Every character `hex.Encode` writes is a digit of `hextable`. -/
theorem encodeHex_mem (bs : Bytes) : ∀ c ∈ encodeHex bs, c ∈ hextable := by
  have hget : ∀ i, hextable.getD i '0' ∈ hextable := by
    intro i
    by_cases hi : i < 16
    · interval_cases i <;> decide
    · have : hextable.length ≤ i := by simpa [hextable] using hi
      rw [List.getD_eq_default _ _ this]
      decide
  induction bs with
  | nil => simp [encodeHex]
  | cons b bs ih =>
    intro c hc
    simp only [encodeHex, List.mem_cons] at hc
    rcases hc with hc | hc | hc
    · exact hc ▸ hget _
    · exact hc ▸ hget _
    · exact ih c hc

/-- `hex.Encode` writes two characters per byte. -/
theorem encodeHex_length (bs : Bytes) : (encodeHex bs).length = 2 * bs.length := by
  induction bs with
  | nil => rfl
  | cons b bs ih =>
    simp only [encodeHex, List.length_cons, ih]
    omega

/-- `hex.DecodeString` reads back what `Bytes2Hex` wrote. -/
theorem DecodeString_Bytes2Hex (bs : Bytes) (h : ∀ b ∈ bs, b < 256) :
    DecodeString (Bytes2Hex bs) = .ok bs := by
  unfold DecodeString Bytes2Hex stringBytes
  induction bs with
  | nil => rfl
  | cons b bs ih =>
    have hb : b < 256 := h b (List.mem_cons_self _ _)
    obtain ⟨c1, h1, f1⟩ := hextable_roundtrip (b / 16) (by omega)
    obtain ⟨c2, h2, f2⟩ := hextable_roundtrip (b % 16) (Nat.mod_lt _ (by norm_num))
    have ih2 := ih (fun x hx => h x (List.mem_cons_of_mem _ hx))
    simp only [encodeHex, List.map_cons, List.flatten_cons, h1, h2, List.singleton_append,
      hexDecode, f1, f2] at ih2 ⊢
    rw [ih2]
    have : b / 16 * 16 + b % 16 = b := by omega
    rw [this]

/-- A value reduced modulo `q` fits in 32 bytes: `FillBytes` does not panic on it. -/
theorem bigIntFillBytes_mod_q (x : Nat) :
    bigIntFillBytes (x % scalarModulus) 32 = .ok (bigEndian 32 (x % scalarModulus)) := by
  have h1 : x % scalarModulus < scalarModulus :=
    Nat.mod_lt _ (by unfold scalarModulus; norm_num)
  have h2 : scalarModulus < 256 ^ 32 := by unfold scalarModulus; norm_num
  have h3 : ¬ 256 ^ 32 ≤ x % scalarModulus := Nat.not_le.mpr (Nat.lt_trans h1 h2)
  simp only [bigIntFillBytes, h3, if_false]

/-- On a name that splits into exactly two words, `AccountNameHash` returns the hex
string of the sub-node, reduced modulo `q` and written in 32 bytes. -/
theorem AccountNameHash_two_words (keccak : Bytes → Bytes) (accountName : String)
    (w0 w1 : List Char) (hs : splitDot accountName.data = [w0, w1]) :
    ∃ n, AccountNameHash keccak accountName =
      .ok (Bytes2Hex (bigEndian 32 (n % scalarModulus)), none) := by
  refine ⟨bigIntSetBytes (keccakHash keccak
    (bigEndian 32 (bigIntSetBytes (keccakHash keccak
      (List.replicate 32 0 ++ keccakHash keccak (stringBytes (String.mk w1)))) %
        scalarModulus) ++ keccakHash keccak (stringBytes (String.mk w0)))), ?_⟩
  simp only [AccountNameHash, stringsSplit, hs, List.map, bigIntFillBytes_mod_q]

/-- C20: `AccountNameHash` returns the empty string with the error
"[AccountNameHash] invalid account name" exactly when the name does not contain exactly
one dot; on every name with exactly one dot, empty labels included, it returns without
panic and without error a string of 64 characters, all digits of `0123456789abcdef`, that
decodes to the big-endian bytes of an integer below the BN254 scalar modulus `q`. -/
theorem AccountNameHash_one_dot (keccak : Bytes → Bytes) (accountName : String) :
    (AccountNameHash keccak accountName = .ok ("", some .invalidAccountName) ↔
      accountName.data.count '.' ≠ 1) ∧
    (accountName.data.count '.' = 1 →
      ∃ res bytes, AccountNameHash keccak accountName = .ok (res, none) ∧
        res.length = 64 ∧ (∀ c ∈ res.data, c ∈ hextable) ∧
        DecodeString res = .ok bytes ∧ bigIntSetBytes bytes < scalarModulus) := by
  have hlen := splitDot_length accountName.data
  have hq : 0 < scalarModulus := by unfold scalarModulus; norm_num
  have hone : accountName.data.count '.' = 1 →
      ∃ n, AccountNameHash keccak accountName =
        .ok (Bytes2Hex (bigEndian 32 (n % scalarModulus)), none) := by
    intro h1
    rw [h1] at hlen
    rcases hs : splitDot accountName.data with _ | ⟨w0, _ | ⟨w1, _ | ⟨w2, rest⟩⟩⟩
    · simp [hs] at hlen
    · simp [hs] at hlen
    · exact AccountNameHash_two_words keccak accountName w0 w1 hs
    · simp [hs] at hlen
  refine ⟨⟨?_, ?_⟩, ?_⟩
  · intro herr h1
    obtain ⟨n, hn⟩ := hone h1
    rw [hn] at herr
    simp at herr
  · intro hne
    rcases hs : splitDot accountName.data with _ | ⟨w0, _ | ⟨w1, _ | ⟨w2, rest⟩⟩⟩
    · simp [AccountNameHash, stringsSplit, hs]
    · simp [AccountNameHash, stringsSplit, hs]
    · rw [hs] at hlen
      simp at hlen
      exact absurd hlen hne
    · simp [AccountNameHash, stringsSplit, hs]
  · intro h1
    obtain ⟨n, hn⟩ := hone h1
    have hl := bigEndian_length 32 (n % scalarModulus)
    have hlt := bigEndian_lt 32 (n % scalarModulus)
    have hv : bigIntSetBytes (bigEndian 32 (n % scalarModulus)) < scalarModulus := by
      rw [bigIntSetBytes_bigEndian]
      exact lt_of_le_of_lt (Nat.mod_le _ _) (Nat.mod_lt _ hq)
    generalize bigEndian 32 (n % scalarModulus) = bs at hn hl hlt hv
    refine ⟨Bytes2Hex bs, bs, hn, ?_, encodeHex_mem bs, DecodeString_Bytes2Hex bs hlt, hv⟩
    rw [Bytes2Hex, String.length_mk, encodeHex_length, hl]

/-- C20, on the names `a.b`, `.`, `a.`, `ab` and `a.b.c` with the stand-in hash. -/
theorem AccountNameHash_one_dot_witness :
    (∃ res, AccountNameHash demoKeccak "a.b" = .ok (res, none) ∧ res.length = 64) ∧
    (∃ res, AccountNameHash demoKeccak "." = .ok (res, none) ∧ res.length = 64) ∧
    (∃ res, AccountNameHash demoKeccak "a." = .ok (res, none) ∧ res.length = 64) ∧
    AccountNameHash demoKeccak "ab" = .ok ("", some .invalidAccountName) ∧
    AccountNameHash demoKeccak "a.b.c" = .ok ("", some .invalidAccountName) := by
  refine ⟨?_, ?_, ?_, ?_, ?_⟩
  · obtain ⟨res, -, h, hl, -⟩ := (AccountNameHash_one_dot demoKeccak "a.b").2 (by decide)
    exact ⟨res, h, hl⟩
  · obtain ⟨res, -, h, hl, -⟩ := (AccountNameHash_one_dot demoKeccak ".").2 (by decide)
    exact ⟨res, h, hl⟩
  · obtain ⟨res, -, h, hl, -⟩ := (AccountNameHash_one_dot demoKeccak "a.").2 (by decide)
    exact ⟨res, h, hl⟩
  · exact (AccountNameHash_one_dot demoKeccak "ab").1.2 (by decide)
  · exact (AccountNameHash_one_dot demoKeccak "a.b.c").1.2 (by decide)

/-- On a string that `hex.Decode` accepts, the bytes returned are all the decoded bytes. -/
theorem hexDecodePartial_of_ok (l : List Nat) (bs : Bytes) (h : hexDecode l = .ok bs) :
    hexDecodePartial l = bs := by
  induction l using hexDecode.induct generalizing bs with
  | case1 =>
    simp only [hexDecode, Except.ok.injEq] at h
    subst h
    rfl
  | case2 p hp => simp [hexDecode, hp] at h
  | case3 p a hp => simp [hexDecode, hp] at h
  | case4 p q rest hp => simp [hexDecode, hp] at h
  | case5 p q rest a hp hq => simp [hexDecode, hp, hq] at h
  | case6 p q rest a hp b hq err hrest ih => simp [hexDecode, hp, hq, hrest] at h
  | case7 p q rest a hp b hq bs1 hrest ih =>
    simp only [hexDecode, hp, hq, hrest, Except.ok.injEq] at h
    subst h
    simp only [hexDecodePartial, hp, hq, ih bs1 hrest]

/-- A string that `hex.Decode` accepts has two bytes per decoded byte. -/
theorem hexDecode_ok_length (l : List Nat) (bs : Bytes) (h : hexDecode l = .ok bs) :
    l.length = 2 * bs.length := by
  induction l using hexDecode.induct generalizing bs with
  | case1 =>
    simp only [hexDecode, Except.ok.injEq] at h
    subst h
    rfl
  | case2 p hp => simp [hexDecode, hp] at h
  | case3 p a hp => simp [hexDecode, hp] at h
  | case4 p q rest hp => simp [hexDecode, hp] at h
  | case5 p q rest a hp hq => simp [hexDecode, hp, hq] at h
  | case6 p q rest a hp b hq err hrest ih => simp [hexDecode, hp, hq, hrest] at h
  | case7 p q rest a hp b hq bs1 hrest ih =>
    simp only [hexDecode, hp, hq, hrest, Except.ok.injEq] at h
    subst h
    simp only [List.length_cons, ih bs1 hrest]
    omega

/-- A string that `hex.Decode` accepts does not start with `0x` or `0X`. -/
theorem has0xPrefix_of_ok (l : List Nat) (bs : Bytes) (h : hexDecode l = .ok bs) :
    has0xPrefix l = false := by
  rcases l with _ | ⟨p, _ | ⟨q, rest⟩⟩
  · rfl
  · rfl
  · have h120 : fromHexChar 120 = none := rfl
    have h88 : fromHexChar 88 = none := rfl
    have hq : q ≠ 120 ∧ q ≠ 88 := by
      constructor
      · rintro rfl
        cases hp : fromHexChar p <;> simp [hexDecode, hp, h120] at h
      · rintro rfl
        cases hp : fromHexChar p <;> simp [hexDecode, hp, h88] at h
    simp [has0xPrefix, hq.1, hq.2]

/-- On a string that `hex.DecodeString` accepts, `common.FromHex` returns the decoded
bytes. -/
theorem FromHex_of_DecodeString (s : String) (bs : Bytes) (h : DecodeString s = .ok bs) :
    FromHex s = bs := by
  unfold DecodeString at h
  have h1 := has0xPrefix_of_ok _ _ h
  have h2 : (stringBytes s).length % 2 ≠ 1 := by
    rw [hexDecode_ok_length _ _ h]
    omega
  simp only [FromHex, h1, h2, Bool.false_eq_true, if_false, Hex2Bytes]
  exact hexDecodePartial_of_ok _ _ h

/-- With a positive modulus that fits in 32 bytes, `NftContentHash` returns the hex
string of the decoded integer reduced modulo the modulus, written in 32 bytes. -/
theorem NftContentHash_eq (Modulus : Nat) (h0 : 0 < Modulus) (h32 : Modulus ≤ 256 ^ 32)
    (s : String) :
    NftContentHash Modulus s =
      .ok (Bytes2Hex (bigEndian 32 (bigIntSetBytes (FromHex s) % Modulus))) := by
  have hne : Modulus ≠ 0 := Nat.pos_iff_ne_zero.mp h0
  have hlt : ¬ 256 ^ 32 ≤ bigIntSetBytes (FromHex s) % Modulus :=
    Nat.not_le.mpr (lt_of_lt_of_le (Nat.mod_lt _ h0) h32)
  simp only [NftContentHash, ffmathMod, hne, if_false, bigIntFillBytes, hlt]

/-- C21: with `curve.Modulus` positive and at most `256 ^ 32`, `NftContentHash` returns
on every string, without panic, a string of 64 characters, all digits of
`0123456789abcdef`, that decodes to the big-endian bytes of the integer decoded from the
input reduced modulo `curve.Modulus`, a value that fits in 32 bytes; applied to its own
result it returns that result again. -/
theorem NftContentHash_idempotent (Modulus : Nat) (h0 : 0 < Modulus)
    (h32 : Modulus ≤ 256 ^ 32) (s : String) :
    ∃ res bytes, NftContentHash Modulus s = .ok res ∧
      res.length = 64 ∧ (∀ c ∈ res.data, c ∈ hextable) ∧
      DecodeString res = .ok bytes ∧
      bigIntSetBytes bytes = bigIntSetBytes (FromHex s) % Modulus ∧
      bigIntSetBytes (FromHex s) % Modulus < 256 ^ 32 ∧
      NftContentHash Modulus res = .ok res := by
  have hv : bigIntSetBytes (FromHex s) % Modulus < Modulus := Nat.mod_lt _ h0
  have hv32 : bigIntSetBytes (FromHex s) % Modulus < 256 ^ 32 := lt_of_lt_of_le hv h32
  have hres := NftContentHash_eq Modulus h0 h32 s
  generalize bigIntSetBytes (FromHex s) % Modulus = v at hv hv32 hres
  have hl := bigEndian_length 32 v
  have hlt := bigEndian_lt 32 v
  have hval : bigIntSetBytes (bigEndian 32 v) = v := by
    rw [bigIntSetBytes_bigEndian, Nat.mod_eq_of_lt hv32]
  have hidem : bigEndian 32 (bigIntSetBytes (bigEndian 32 v) % Modulus) = bigEndian 32 v := by
    rw [hval, Nat.mod_eq_of_lt hv]
  generalize bigEndian 32 v = bs at hres hl hlt hval hidem
  have hdec := DecodeString_Bytes2Hex bs hlt
  refine ⟨Bytes2Hex bs, bs, hres, ?_, encodeHex_mem bs, hdec, hval, hv32, ?_⟩
  · rw [Bytes2Hex, String.length_mk, encodeHex_length, hl]
  · rw [NftContentHash_eq Modulus h0 h32, FromHex_of_DecodeString _ bs hdec, hidem]

/-- C21, with the BN254 scalar modulus on the content `0x1234`: the hash is the 64-digit
string ending in `1234`, and hashing it again returns it. -/
theorem NftContentHash_idempotent_witness :
    NftContentHash scalarModulus "0x1234" =
        .ok "0000000000000000000000000000000000000000000000000000000000001234" ∧
      ∃ res bytes, NftContentHash scalarModulus "0x1234" = .ok res ∧
        res.length = 64 ∧ (∀ c ∈ res.data, c ∈ hextable) ∧
        DecodeString res = .ok bytes ∧
        bigIntSetBytes bytes = bigIntSetBytes (FromHex "0x1234") % scalarModulus ∧
        bigIntSetBytes (FromHex "0x1234") % scalarModulus < 256 ^ 32 ∧
        NftContentHash scalarModulus res = .ok res :=
  ⟨rfl, NftContentHash_idempotent scalarModulus (by unfold scalarModulus; norm_num)
    (by unfold scalarModulus; norm_num) "0x1234"⟩

/-- On content that is not hexadecimal throughout, the digits before the first other
character are hashed: `12zz34` gives the hash of the byte `12`. -/
theorem NftContentHash_partial_hex :
    NftContentHash scalarModulus "12zz34" =
      .ok "0000000000000000000000000000000000000000000000000000000000000012" :=
  rfl

/-- A zero modulus makes `big.Int.Mod` panic. -/
theorem NftContentHash_zero_modulus :
    NftContentHash 0 "12" = .error .divisionByZero :=
  rfl

end ZkbnbSdk
